import Mathlib

/-!
Shallow embedding of the flight-scraping pipeline of the Travel-Agent MCP
server (files `flight_mcp_server/{enums,models,utils,scrapper,main}.py`),
together with theorems settling the frozen claims about its specification.

Python dictionaries returned by the extraction code are modelled as Lean
structures; Python `None` is modelled as `Option.none`; code that can raise
an exception is modelled in the `Except String` monad, the error string
being the exception's message text.  DOM subtrees are modelled as records
whose fields hold exactly the query results the source code reads
(one field per CSS selector that the code uses).
-/

namespace FlightScraper

/-! ## enums.py -/

/-- `PlaneType` enum from `enums.py`. -/
inductive PlaneType where
  | ECONOMY | PREMIUM | BUSINESS | FIRST
deriving DecidableEq

/-- Wire value of a `PlaneType` (the `.value` attribute). -/
def PlaneType.value : PlaneType → String
  | .ECONOMY => "economy"
  | .PREMIUM => "premium"
  | .BUSINESS => "business"
  | .FIRST => "first"

/-- `SortOption` enum from `enums.py`. -/
inductive SortOption where
  | BEST_FLIGHT | QUICKEST | SLOWEST | CHEAPEST | MOST_EXPENSIVE
  | EARLIEST_TAKEOFF_A | LATEST_TAKEOFF_A | EARLIEST_LANDING_B | LATEST_LANDING_B
  | EARLIEST_TAKEOFF_B | LATEST_TAKEOFF_B | EARLIEST_LANDING_A | LATEST_LANDING_A
deriving DecidableEq

/-- Wire value of a `SortOption` (the `.value` attribute). -/
def SortOption.value : SortOption → String
  | .BEST_FLIGHT => "bestflight_a"
  | .QUICKEST => "duration_a"
  | .SLOWEST => "duration_b"
  | .CHEAPEST => "price_a"
  | .MOST_EXPENSIVE => "price_b"
  | .EARLIEST_TAKEOFF_A => "depart_a"
  | .LATEST_TAKEOFF_A => "depart_b"
  | .EARLIEST_LANDING_B => "arrive_a"
  | .LATEST_LANDING_B => "arrive_b"
  | .EARLIEST_TAKEOFF_B => "departReturn_a"
  | .LATEST_TAKEOFF_B => "departReturn_b"
  | .EARLIEST_LANDING_A => "arriveReturn_a"
  | .LATEST_LANDING_A => "arriveReturn_b"

/-- `Alliance` enum from `enums.py`. -/
inductive Alliance where
  | VALUE_ALLIANCE | ONE_WORLD | SKY_TEAM | STAR_ALLIANCE
deriving DecidableEq

/-- Wire value of an `Alliance` (the `.value` attribute). -/
def Alliance.value : Alliance → String
  | .VALUE_ALLIANCE => "VALUE_ALLIANCE"
  | .ONE_WORLD => "ONE_WORLD"
  | .SKY_TEAM => "SKY_TEAM"
  | .STAR_ALLIANCE => "STAR_ALLIANCE"

/-- `ChildType` enum from `enums.py`. -/
inductive ChildType where
  | CHILD | TODDLER_SEAT | INFANT_LAP
deriving DecidableEq

/-- Wire value of a `ChildType` (the `.value` attribute):
`CHILD = "11"`, `TODDLER_SEAT = "1S"`, `INFANT_LAP = "1L"`. -/
def ChildType.value : ChildType → String
  | .CHILD => "11"
  | .TODDLER_SEAT => "1S"
  | .INFANT_LAP => "1L"

/-! ## models.py — FlightPassengers -/

/-- `FlightPassengers` dataclass from `models.py`.  `__post_init__` rejects
negative counts, so the counts are modelled as `Nat`. -/
structure FlightPassengers where
  adults : Nat := 1
  students : Nat := 0
  children : List ChildType := []
deriving DecidableEq

/-- One step of building the `child_counts` dict of
`FlightPassengers.to_url_string`: `child_counts[child] =
child_counts.get(child, 0) + 1`.  A Python dict is modelled as an
association list in insertion order. -/
def bumpChild (acc : List (ChildType × Nat)) (c : ChildType) : List (ChildType × Nat) :=
  if acc.any (fun p => p.1 = c) then
    acc.map (fun p => if p.1 = c then (p.1, p.2 + 1) else p)
  else
    acc ++ [(c, 1)]

/-- The `child_counts` dict of `FlightPassengers.to_url_string`, as an
association list in insertion order. -/
def childCounts (l : List ChildType) : List (ChildType × Nat) :=
  l.foldl bumpChild []

/-- Lexicographic comparison of character lists, Python's `<=` on
strings restricted as far as the sort key needs it. -/
def lexLe : List Char → List Char → Bool
  | [], _ => true
  | _ :: _, [] => false
  | a :: as, b :: bs =>
    if a < b then true
    else if b < a then false
    else lexLe as bs

/-- Python's lexicographic `<=` on strings (by code point). -/
def codeLe (s t : String) : Bool :=
  lexLe s.data t.data

/-- Insert one `(child, count)` pair into a list sorted by the child's
code string; used to model Python's `sorted(child_counts.items(),
key=lambda x: x[0].value)` (the keys of a dict are distinct, so any
sorting algorithm yields the same list). -/
def insertByCode (p : ChildType × Nat) : List (ChildType × Nat) → List (ChildType × Nat)
  | [] => [p]
  | q :: qs => if codeLe p.1.value q.1.value then p :: q :: qs else q :: insertByCode p qs

/-- Sort `(child, count)` pairs by the child's code string. -/
def sortByCode (l : List (ChildType × Nat)) : List (ChildType × Nat) :=
  l.foldr insertByCode []

/-- One `{count}{code}` / `{code}` token of the children segment:
the count prefixes the code only when it exceeds 1. -/
def childToken (p : ChildType × Nat) : String :=
  if p.2 > 1 then toString p.2 ++ p.1.value else p.1.value

/-- `FlightPassengers.to_url_string` from `models.py`. -/
def FlightPassengers.to_url_string (ps : FlightPassengers) : String :=
  let parts : List String :=
    (if ps.adults > 0 then [toString ps.adults ++ "adults"] else []) ++
    (if ps.students > 0 then [toString ps.students ++ "students"] else []) ++
    (if ps.children.isEmpty then [] else
      ["children-" ++
        String.intercalate "-" ((sortByCode (childCounts ps.children)).map childToken)])
  String.intercalate "-" parts

example :
    FlightPassengers.to_url_string
      { adults := 2, students := 0,
        children := [ChildType.INFANT_LAP, ChildType.CHILD] } = "2adults-children-11-1L" := rfl


/-! ## models.py — FlightFilters -/

/-- `FlightFilters` dataclass from `models.py`.  The Python
`Set[str]` airline fields are modelled as `Option (List String)`;
a Python set's iteration order is unspecified, the model fixes one. -/
structure FlightFilters where
  carry_on_free : Option Int := none
  checked_bags_free : Option Int := none
  stops : Option Int := none
  max_price : Option Int := none
  alliance : Option Alliance := none
  include_airlines : Option (List String) := none
  exclude_airlines : Option (List String) := none
  wifi_only : Bool := false
deriving DecidableEq

/-- `re.match(r"^[A-Z0-9]{2}$", code)` from `FlightFilters.to_url_string`. -/
def matchAirlineCode (s : String) : Bool :=
  s.length == 2 && s.toList.all (fun c => ('A' ≤ c && c ≤ 'Z') || c.isDigit)

/-- Python truthiness of an optional list (`None` and the empty
collection are falsy). -/
def truthyList (o : Option (List String)) : Bool :=
  match o with
  | none => false
  | some l => !l.isEmpty

/-- One `if <field> is not None` block of `FlightFilters.to_url_string`
for a count field: raise on a negative value, else append
`<key><value>`. -/
def addTokNonNeg (emsg key : String) (v : Option Int) (parts : List String) :
    Except String (List String) :=
  match v with
  | some n =>
    if n < 0 then Except.error emsg
    else pure (parts ++ [key ++ toString n])
  | none => pure parts

/-- The `max_price` block of `FlightFilters.to_url_string`: raise on a
non-positive value, else append `price=-{max}`. -/
def addTokPrice (v : Option Int) (parts : List String) : Except String (List String) :=
  match v with
  | some n =>
    if n ≤ 0 then Except.error "Max price must be positive"
    else pure (parts ++ ["price=-" ++ toString n])
  | none => pure parts

/-- One `if self.<airlines>` block of `FlightFilters.to_url_string`:
skipped when the set is `None` or empty (Python truthiness); raises when
a code is malformed; else appends `<pre><csv>`. -/
def addTokAirlines (pre emsg : String) (o : Option (List String)) (parts : List String) :
    Except String (List String) :=
  if truthyList o then
    if !(o.getD []).all matchAirlineCode then Except.error emsg
    else pure (parts ++ [pre ++ String.intercalate "," (o.getD [])])
  else pure parts

/-- `FlightFilters.to_url_string` from `models.py`.  Raises
`ValueError` (modelled as `.error`) on invalid field values; otherwise
appends one token per truthy/`is not None` field in the source's fixed
order and joins them with `";"`. -/
def FlightFilters.to_url_string (f : FlightFilters) : Except String String := do
  let parts : List String := []
  let parts ← addTokNonNeg "Carry-on bags cannot be negative" "cfc=" f.carry_on_free parts
  let parts ← addTokNonNeg "Checked bags cannot be negative" "bfc=" f.checked_bags_free parts
  let parts ← addTokNonNeg "Stops cannot be negative" "stops=" f.stops parts
  let parts ← addTokPrice f.max_price parts
  let parts := match f.alliance with
    | some al => parts ++ ["alliance=" ++ al.value]
    | none => parts
  let parts ← addTokAirlines "airlines=" "Invalid airline codes in include_airlines"
    f.include_airlines parts
  let parts ← addTokAirlines "airlines=-" "Invalid airline codes in exclude_airlines"
    f.exclude_airlines parts
  let parts := if f.wifi_only then parts ++ ["wifi=wifi"] else parts
  pure (String.intercalate ";" parts)

/-! ## utils.py — URL builder -/

/-- Modelled from the spec: `config.py` is not under `src/`; the spec
only calls it "a fixed base origin", and `scrapper.py` line 260 uses the
literal default origin. -/
def BASE_URL : String := "https://www.ca.kayak.com"

/-- Modelled from the spec: `config.py` is not under `src/`; the search
base is the `<base>` of the URL grammar in spec section 4.1. -/
def BASE_SEARCH_URL : String := "https://www.ca.kayak.com/flights"

/-- `re.match(r"^[A-Z]{3}$", s)` from `generate_search_url`. -/
def matchAirport (s : String) : Bool :=
  s.length == 3 && s.toList.all (fun c => 'A' ≤ c && c ≤ 'Z')

/-- `re.match(r"^\d{4}-\d{2}-\d{2}$", s)` from `generate_search_url`
and `main.py`. -/
def matchDate (s : String) : Bool :=
  match s.toList with
  | [a, b, c, d, h1, e, f, h2, g, h] =>
    h1 = '-' && h2 = '-' && [a, b, c, d, e, f, g, h].all Char.isDigit
  | _ => false

/-- Python truthiness of an optional string (`None` and `""` are falsy):
`generate_search_url` tests `if return_date:` twice. -/
def truthyStr (o : Option String) : Bool :=
  match o with
  | none => false
  | some s => !s.isEmpty

/-- `generate_search_url` from `utils.py`.  Raises `ValueError`
(modelled as `.error`) on malformed airports or dates, otherwise builds
`<base>/<DEP>-<ARR>/<dep date>[/<ret date>]/<passengers>/<cabin>?sort=<v>[&fs=<fs>]`. -/
def generate_search_url (departure_airport arrival_airport departure_date : String)
    (return_date : Option String) (passengers : FlightPassengers)
    (plane_type : PlaneType) (sort_option : SortOption)
    (filters : Option FlightFilters) : Except String String :=
  if !matchAirport departure_airport then
    Except.error ("Invalid departure airport code: " ++ departure_airport)
  else if !matchAirport arrival_airport then
    Except.error ("Invalid arrival airport code: " ++ arrival_airport)
  else if !matchDate departure_date then
    Except.error ("Invalid departure date format: " ++ departure_date)
  else if truthyStr return_date && !matchDate (return_date.getD "") then
    Except.error ("Invalid return date format: " ++ return_date.getD "")
  else do
    let path_parts : List String :=
      [departure_airport ++ "-" ++ arrival_airport, departure_date] ++
      (if truthyStr return_date then [return_date.getD ""] else []) ++
      [passengers.to_url_string, plane_type.value]
    let path := String.intercalate "/" path_parts
    let fs ← match filters with
      | none => pure ""
      | some f => f.to_url_string
    let query_parts : List String :=
      ["sort=" ++ sort_option.value] ++
      (match filters with
       | some _ => if fs.isEmpty then [] else ["fs=" ++ fs]
       | none => [])
    let query_string := String.intercalate "&" query_parts
    pure (BASE_SEARCH_URL ++ "/" ++ path ++ "?" ++ query_string)

example :
    generate_search_url "YYZ" "HKG" "2025-07-01" (some "2025-07-25")
      { adults := 2, students := 0, children := [] }
      PlaneType.ECONOMY SortOption.CHEAPEST (some { max_price := some 6000 }) =
    Except.ok (BASE_SEARCH_URL ++
      "/YYZ-HKG/2025-07-01/2025-07-25/2adults/economy?sort=price_a&fs=price=-6000") := by
  rfl

/-! ## utils.py — leg parser data model

The DOM subtree of one flight leg is modelled as a record with one field
per CSS query that `parse_flight_leg` performs on it. -/

/-- An airport `{code, name}` pair as built by `parse_flight_leg`. -/
structure Airport where
  code : String
  name : String
deriving DecidableEq

/-- One stop entry of `stopDetails`. -/
structure StopDetail where
  airportCode : String
  airportName : String
  layoverDuration : String
deriving DecidableEq

/-- The structured leg record returned by `parse_flight_leg` for a
present subtree. -/
structure FlightLeg where
  departureTime : String
  departureAirport : Airport
  arrivalTime : String
  arrivalAirport : Airport
  duration : String
  airlines : List String
  stops : Nat
  stopDetails : List StopDetail
  nextDayArrival : Bool
deriving DecidableEq

/-- One `.jLhY-airport-info` block: the inner texts of its `span`
children, in document order. -/
structure AirportInfoElem where
  spanTexts : List String
deriving DecidableEq

/-- The `.EFvI` element of a leg: its `.jLhY-airport-info` blocks. -/
structure EfviElem where
  airportInfos : List AirportInfoElem
deriving DecidableEq

/-- The `.hEI8` span inside one stop marker: its full inner text and the
inner text of its `.AFFP` span when that span exists. -/
structure HEI8Elem where
  innerText : String
  affpText : Option String
deriving DecidableEq

/-- One top-level stop marker span
(`.JWEO .c_cgF-mod-variant-full-airport > span`): the inner text of its
first inner `span` when one exists, and its `.hEI8` child. -/
structure StopElem where
  codeText : Option String
  hEI8 : Option HEI8Elem
deriving DecidableEq

/-- DOM subtree of one flight leg, restricted to the queries that
`parse_flight_leg` reads: the `.VY2U .vmXl span` inner texts, the
`.EFvI` element, the `.xdW8 .vmXl` inner text, the `alt` attributes of
the `.c5iUd-leg-carrier img` elements, the `.JWEO-stops-text` inner
text, the stop marker spans, and whether a `.VY2U-adendum` element is
present. -/
structure LegElem where
  timeSpanTexts : List String
  efvi : Option EfviElem
  durationText : Option String
  carrierImgAlts : List String
  stopsText : Option String
  stopElems : List StopElem
  hasNextDayElem : Bool
deriving DecidableEq

/-! ## utils.py — leg parser -/

/-- Helper for `pySplit`: walk the characters, accumulating the current
token in reverse. -/
def pySplitAux : List Char → List Char → List String
  | [], acc => if acc.isEmpty then [] else [String.mk acc.reverse]
  | c :: cs, acc =>
    if c.isWhitespace then
      if acc.isEmpty then pySplitAux cs []
      else String.mk acc.reverse :: pySplitAux cs []
    else pySplitAux cs (c :: acc)

/-- Python `str.split()` with no argument: split on runs of whitespace,
discarding empty tokens. -/
def pySplit (s : String) : List String :=
  pySplitAux s.toList []

/-- Python `str.isdigit()` (restricted to ASCII digits): true iff the
string is nonempty and all characters are digits. -/
def pyIsDigit (s : String) : Bool :=
  !s.isEmpty && s.toList.all Char.isDigit

/-- Decimal value of a digit string. -/
def digitsVal (cs : List Char) : Nat :=
  cs.foldl (fun n c => n * 10 + (c.toNat - '0'.toNat)) 0

/-- Python `int(s)` for a digit-only string (the only way the source
calls it). -/
def pyToNat (s : String) : Nat :=
  digitsVal s.toList

/-- Python `str.lower()` (ASCII). -/
def pyLower (s : String) : String :=
  String.mk (s.toList.map Char.toLower)

/-- Lines 138-145 of `utils.py`: extract the stop count from the
`.JWEO-stops-text` inner text.  When the element exists, Python first
evaluates `inner_text().split()[0]`, which raises `IndexError` when the
text has no whitespace-separated token. -/
def extractStops (stopsText : Option String) : Except String Nat :=
  match stopsText with
  | some t =>
    match pySplit t with
    | [] => Except.error "list index out of range"
    | tok :: _ =>
      if pyIsDigit tok then Except.ok (pyToNat tok)
      else if pyLower t = "direct" then Except.ok 0
      else Except.ok 0
  | none => Except.ok 0

/-- Airport `{code, name}` from one `.jLhY-airport-info` block:
span 0 is the code, span 1 the name, each defaulting to `"N/A"`. -/
def parseAirportInfo (ai : AirportInfoElem) : Airport :=
  { code := ai.spanTexts.getD 0 "N/A", name := ai.spanTexts.getD 1 "N/A" }

/-- `re.match(r"^[A-Z]{3}$", code)` applied to a stop's airport code. -/
def isIATA (s : String) : Bool :=
  s.length == 3 && s.toList.all (fun c => 'A' ≤ c && c ≤ 'Z')

/-- Split a leading run of digits off a character list. -/
def takeDigits : List Char → List Char × List Char
  | [] => ([], [])
  | c :: cs =>
    if c.isDigit then
      let (d, r) := takeDigits cs
      (c :: d, r)
    else ([], c :: cs)

/-- Match `(\d+h \d+m) layover` at the head of a character list,
returning the parenthesised group.  Since `\d` cannot match `h`, the
greedy `\d+` runs are exactly the maximal digit runs. -/
def matchLayoverHere (cs : List Char) : Option String :=
  let (d1, r1) := takeDigits cs
  if d1.isEmpty then none
  else
    match r1 with
    | 'h' :: ' ' :: r2 =>
      let (d2, r3) := takeDigits r2
      if d2.isEmpty then none
      else
        match r3 with
        | 'm' :: ' ' :: 'l' :: 'a' :: 'y' :: 'o' :: 'v' :: 'e' :: 'r' :: _ =>
          some (String.mk (d1 ++ 'h' :: ' ' :: d2 ++ ['m']))
        | _ => none
    | _ => none

/-- `re.search(r"(\d+h \d+m) layover", text)`: leftmost match of the
pattern, returning group 1. -/
def searchLayover : List Char → Option String
  | [] => none
  | c :: cs =>
    match matchLayoverHere (c :: cs) with
    | some s => some s
    | none => searchLayover cs

/-- The body of the `for stop_elem in stop_elements` loop of
`parse_flight_leg` (lines 152-182): `none` models `continue`. -/
def parseStopElem (depCode arrCode : String) (se : StopElem) : Option StopDetail :=
  match se.codeText with
  | none => none
  | some ct =>
    let airport_code := String.mk (ct.toList.take 3)
    if !isIATA airport_code then none
    else if airport_code = depCode || airport_code = arrCode then none
    else
      match se.hEI8 with
      | none => none
      | some h8 =>
        let airport_name := h8.affpText.getD "N/A"
        let layover_duration := (searchLayover h8.innerText.toList).getD "N/A"
        some { airportCode := airport_code, airportName := airport_name,
               layoverDuration := layover_duration }

/-- The stop-details list accumulated by the extraction loop, before
deduplication. -/
def rawStopDetails (depCode arrCode : String) (ses : List StopElem) : List StopDetail :=
  ses.filterMap (parseStopElem depCode arrCode)

/-- Line 185 of `utils.py`: deduplicate stop details by airport code,
keeping the first occurrence (`seen` is the set already emitted). -/
def dedupByCode : List StopDetail → List String → List StopDetail
  | [], _ => []
  | d :: ds, seen =>
    if d.airportCode ∈ seen then dedupByCode ds seen
    else d :: dedupByCode ds (d.airportCode :: seen)

/-- The all-sentinel leg record returned early when the `.EFvI` element
is missing (lines 93-103 of `utils.py`). -/
def sentinelFlightLeg (departureTime arrivalTime : String) : FlightLeg :=
  { departureTime := departureTime
    departureAirport := { code := "N/A", name := "N/A" }
    arrivalTime := arrivalTime
    arrivalAirport := { code := "N/A", name := "N/A" }
    duration := "N/A"
    airlines := ["N/A"]
    stops := 0
    stopDetails := []
    nextDayArrival := false }

/-- `parse_flight_leg` from `utils.py`.  A missing subtree
(`if not flight_leg_elem`) yields the empty dict `{}`, modelled as
`Option.none`; a present subtree yields a full `FlightLeg`.  The
`.error` case models the `IndexError` that `extractStops` can raise. -/
def parse_flight_leg (elem : Option LegElem) : Except String (Option FlightLeg) :=
  match elem with
  | none => Except.ok none
  | some e =>
    let departure_time := e.timeSpanTexts.getD 0 "N/A"
    let arrival_time := e.timeSpanTexts.getD 2 "N/A"
    match e.efvi with
    | none => Except.ok (some (sentinelFlightLeg departure_time arrival_time))
    | some efviElem => do
      let airports : Airport × Airport :=
        match efviElem.airportInfos with
        | [a, b] => (parseAirportInfo a, parseAirportInfo b)
        | _ => ({ code := "N/A", name := "N/A" }, { code := "N/A", name := "N/A" })
      let departure_airport := airports.1
      let arrival_airport := airports.2
      let duration := e.durationText.getD "N/A"
      let airlines := if e.carrierImgAlts.isEmpty then ["N/A"] else e.carrierImgAlts
      let stops ← extractStops e.stopsText
      let stop_details :=
        if stops > 0 then
          dedupByCode
            (rawStopDetails departure_airport.code arrival_airport.code e.stopElems) []
        else []
      Except.ok (some
        { departureTime := departure_time
          departureAirport := departure_airport
          arrivalTime := arrival_time
          arrivalAirport := arrival_airport
          duration := duration
          airlines := airlines
          stops := stops
          stopDetails := stop_details
          nextDayArrival := e.hasNextDayElem })

/-- A leg subtree in which every query comes back empty. -/
def emptyLegElem : LegElem :=
  ⟨[], none, none, [], none, [], false⟩

/-- A leg subtree whose `.EFvI` element exists but whose
`.JWEO-stops-text` inner text is empty. -/
def emptyStopsTextLegElem : LegElem :=
  ⟨[], some ⟨[]⟩, none, [], some "", [], false⟩

example : parse_flight_leg none = Except.ok none := rfl

example :
    parse_flight_leg (some emptyLegElem) =
      Except.ok (some (sentinelFlightLeg "N/A" "N/A")) := rfl

example :
    parse_flight_leg (some emptyStopsTextLegElem) =
      Except.error "list index out of range" := rfl

example : extractStops (some "1 stop") = Except.ok 1 := rfl
example : extractStops (some "direct") = Except.ok 0 := rfl
example : extractStops (some "nonstop") = Except.ok 0 := rfl
example : searchLayover "JFK 2h 30m layover".toList = some "2h 30m" := rfl
example : searchLayover "no layover here 2h 3m".toList = none := rfl

/-! ## utils.py — price and booking link helpers -/

/-- `clean_price` from `utils.py`: `None`/empty is `"N/A"`, otherwise
non-breaking spaces are replaced by plain spaces. -/
def clean_price (s : String) : String :=
  if s.isEmpty then "N/A"
  else String.mk (s.toList.map (fun c => if c = '\u00A0' then ' ' else c))

/-- `generate_booking_link` from `utils.py`. -/
def generate_booking_link (suffix_url : String) : String :=
  BASE_URL ++ suffix_url

/-- Helper for `pySplitCommaSpace`: split a character list at each
non-overlapping occurrence of `", "`, scanning left to right. -/
def splitCommaSpace : List Char → List Char → List String
  | [], acc => [String.mk acc.reverse]
  | ',' :: ' ' :: cs, acc => String.mk acc.reverse :: splitCommaSpace cs []
  | c :: cs, acc => splitCommaSpace cs (c :: acc)

/-- Python `str.split(", ")` as used for the fare-type labels. -/
def pySplitCommaSpace (s : String) : List String :=
  splitCommaSpace s.toList []

example : pySplitCommaSpace "Basic, Flex" = ["Basic", "Flex"] := rfl
example : pySplitCommaSpace "" = [""] := rfl

/-! ## scrapper.py — result card data model -/

/-- DOM subtree of one result card (`.Fxw9-result-item-container`),
restricted to the queries `scrape_flights` reads per card.  Elements
hold their inner text (or the relevant attribute) when present. -/
structure CardElem where
  hasLegList : Bool
  hasAdBadge : Bool
  priceText : Option String
  fareTypesText : Option String
  availableSitesText : Option String
  bookingLinkHref : Option String
  carryOnText : Option String
  checkedBagsText : Option String
  outboundLeg : Option LegElem
  returnLeg : Option LegElem
  hasMultipleAirlinesText : Bool
  bookingButtonText : Option String
deriving DecidableEq

/-- The `flightDetails` sub-dict of one extracted flight. -/
structure FlightDetails where
  price : String
  fareTypes : List String
  availableSites : Nat
  carryOn : Nat
  checkedBags : Nat
  bookingLink : String
deriving DecidableEq

/-- The `metadata` sub-dict of one extracted flight. -/
structure FlightMetadata where
  multipleAirlines : Bool
  bookingButtonText : String
deriving DecidableEq

/-- One extracted flight record.  `outboundFlight`/`returnFlight` are
`none` when `parse_flight_leg` returned the empty dict `{}`. -/
structure Flight where
  flightDetails : FlightDetails
  outboundFlight : Option FlightLeg
  returnFlight : Option FlightLeg
  metadata : FlightMetadata
deriving DecidableEq

/-- Line 255 of `scrapper.py`: available-sites count from the
`.M_JD-num-sites-label` text.  As with the stop count, Python evaluates
`inner_text().split()[0]` first, which raises `IndexError` on text with
no whitespace-separated token. -/
def extractAvailableSites (t : Option String) : Except String Nat :=
  match t with
  | none => Except.ok 0
  | some txt =>
    match pySplit txt with
    | [] => Except.error "list index out of range"
    | tok :: _ => Except.ok (if pyIsDigit tok then pyToNat tok else 0)

/-- Lines 257-258 of `scrapper.py`: a baggage count is the digit-only
inner text of its fee box, else 0. -/
def extractBaggageCount (t : Option String) : Nat :=
  match t with
  | none => 0
  | some txt => if pyIsDigit txt then pyToNat txt else 0

/-- Lines 232-268 of `scrapper.py`: extract one (non-ad) result card
into a `Flight`.  The legs are parsed first (lines 243-244), so a leg
`IndexError` surfaces before an available-sites one. -/
def extractFlight (item : CardElem) : Except String Flight := do
  let outbound_flight ← parse_flight_leg item.outboundLeg
  let return_flight ← parse_flight_leg item.returnLeg
  let sites ← extractAvailableSites item.availableSitesText
  Except.ok
    { flightDetails :=
        { price := match item.priceText with
            | some p => clean_price p
            | none => "N/A"
          fareTypes := match item.fareTypesText with
            | some t => pySplitCommaSpace t
            | none => []
          availableSites := sites
          carryOn := extractBaggageCount item.carryOnText
          checkedBags := extractBaggageCount item.checkedBagsText
          bookingLink := match item.bookingLinkHref with
            | some href => generate_booking_link href
            | none => "https://www.ca.kayak.com" }
      outboundFlight := outbound_flight
      returnFlight := return_flight
      metadata :=
        { multipleAirlines := item.hasMultipleAirlinesText
          bookingButtonText := item.bookingButtonText.getD "N/A" } }

/-- Lines 222-268 of `scrapper.py`: the `for idx, item in
enumerate(result_items)` loop.  Cards outside `[start_index, end_index]`
and advertisement cards are skipped; the survivors are extracted in page
order; an extraction exception aborts the loop (and is caught at the top
level of the orchestrator). -/
def extractLoop (si ei : Nat) : List CardElem → Nat → Except String (List Flight)
  | [], _ => Except.ok []
  | item :: rest, idx =>
    if idx < si || idx > ei then extractLoop si ei rest (idx + 1)
    else if !item.hasLegList || item.hasAdBadge then extractLoop si ei rest (idx + 1)
    else do
      let fl ← extractFlight item
      let tl ← extractLoop si ei rest (idx + 1)
      Except.ok (fl :: tl)

/-! ## scrapper.py — browser session model -/

/-- Model of one browser session on the results page.  The page's DOM
state is determined by the number of "show more" clicks performed so
far; the only DOM mutation in the orchestrator is clicking that button.
`navFails i` says whether navigation attempt `i` raises;
`noResultsElem` whether an explicit no-results indicator is present;
`waitResultsFail` carries the message of the `wait_for_selector`
timeout when the result container never appears; `cardsAfter k` is the
list of materialized result cards after `k` clicks; `showMore k`
whether the show-more control exists after `k` clicks; `clickFails k`
whether clicking it then raises (caught locally, breaking the loop). -/
structure BrowserModel where
  navFails : Nat → Bool
  noResultsElem : Bool
  waitResultsFail : Option String
  cardsAfter : Nat → List CardElem
  showMore : Nat → Bool
  clickFails : Nat → Bool

/-- The pagination loop of `scrape_flights` (lines 170-197), written as
the source writes it: loop until the card count reaches
`target = end_index + 1`, the show-more control disappears, a click
fails, or a click fails to increase the count.  Returns the number of
clicks performed.  Total by well-founded recursion on the distance from
the card count to the target. -/
def paginateClicks (bm : BrowserModel) (target : Nat) (clicks : Nat) : Nat :=
  let count := (bm.cardsAfter clicks).length
  if count ≥ target then clicks
  else if !bm.showMore clicks then clicks
  else if bm.clickFails clicks then clicks
  else
    let newCount := (bm.cardsAfter (clicks + 1)).length
    if h : newCount ≤ count then clicks + 1
    else paginateClicks bm target (clicks + 1)
termination_by target - (bm.cardsAfter clicks).length
decreasing_by
  simp only [not_le] at *
  omega

/-- Fuel-bounded version of the pagination loop: `none` means the loop
did not finish within `fuel` iterations. -/
def paginateRun (bm : BrowserModel) (target : Nat) : Nat → Nat → Option Nat
  | 0, _ => none
  | fuel + 1, clicks =>
    let count := (bm.cardsAfter clicks).length
    if count ≥ target then some clicks
    else if !bm.showMore clicks then some clicks
    else if bm.clickFails clicks then some clicks
    else
      let newCount := (bm.cardsAfter (clicks + 1)).length
      if newCount ≤ count then some (clicks + 1)
      else paginateRun bm target fuel (clicks + 1)

/-- The click count at which the orchestrator leaves the pagination
loop: `target + 1` iterations always suffice (the claim-C3 theorem
shows `paginateRun` returns `some` there, agreeing with
`paginateClicks`, so the `getD` default is never used). -/
def finalClicks (bm : BrowserModel) (target : Nat) : Nat :=
  (paginateRun bm target (target + 1) 0).getD 0

/-! ## scrapper.py — orchestrator -/

/-- The `search_params` dict echoed in every response
(lines 65-77 of `scrapper.py`). -/
structure SearchParams where
  search_url : String
  departure_airport : String
  arrival_airport : String
  departure_date : String
  return_date : Option String
  passengers : FlightPassengers
  plane_type : String
  sort_option : String
  filters : Option FlightFilters
  start_index : Nat
  end_index : Nat
deriving DecidableEq

/-- The response dict of `scrape_flights`.  The error responses of the
source have no `"flights"` key at all, modelled as `flights = none`. -/
structure ScrapeReport where
  status : String
  flights : Option (List Flight)
  total_results : Nat
  message : Option String
  search_parameters : SearchParams
deriving DecidableEq

/-- Arguments of `scrape_flights`.  `start_index`/`end_index` are
`Nat`, so the `start_index < 0` and `isinstance` guards of the source
are enforced by the type. -/
structure ScrapeArgs where
  departure_airport : String
  arrival_airport : String
  departure_date : String
  return_date : Option String
  passengers : FlightPassengers
  plane_type : PlaneType
  sort_option : SortOption
  filters : Option FlightFilters
  start_index : Nat
  end_index : Nat

/-- An error response dict (`status="no_flights_found"`,
`total_results=0`, no `"flights"` key). -/
def errorReport (msg : String) (params : SearchParams) : ScrapeReport :=
  { status := "no_flights_found", flights := none, total_results := 0,
    message := some msg, search_parameters := params }

/-- Everything inside the `with sync_playwright()` block of
`scrape_flights` (lines 79-307): navigation with up to 3 attempts, the
no-results check, the wait for the result container, pagination,
extraction, and response assembly.  `.error` models an uncaught
exception inside the block (the file-artifact writes are side effects
outside the functional contract and are not modelled). -/
def scrapeBody (bm : BrowserModel) (a : ScrapeArgs) (params : SearchParams) :
    Except String ScrapeReport :=
  if bm.navFails 0 && bm.navFails 1 && bm.navFails 2 then
    Except.ok (errorReport "Failed to load Kayak page after multiple attempts" params)
  else if bm.noResultsElem then
    Except.ok (errorReport "No flights available for the specified parameters" params)
  else
    match bm.waitResultsFail with
    | some e =>
      Except.ok (errorReport ("Flight results container not found: " ++ e) params)
    | none => do
      let target_results := a.end_index + 1
      let clicks := finalClicks bm target_results
      let result_items := bm.cardsAfter clicks
      if result_items.isEmpty then
        Except.ok (errorReport "No flight results found for the specified parameters" params)
      else do
        let total_results := result_items.length
        let flight_data ← extractLoop a.start_index a.end_index result_items 0
        let message :=
          if total_results < target_results then
            some ("Requested up to index " ++ toString a.end_index ++ ", but only " ++
              toString total_results ++ " results available.")
          else none
        Except.ok
          { status := "success", flights := some flight_data,
            total_results := total_results, message := message,
            search_parameters := params }

/-- The `search_params` dict built at lines 65-77 of `scrapper.py`. -/
def mkSearchParams (search_url : String) (a : ScrapeArgs) : SearchParams :=
  { search_url := search_url
    departure_airport := a.departure_airport
    arrival_airport := a.arrival_airport
    departure_date := a.departure_date
    return_date := a.return_date
    passengers := a.passengers
    plane_type := a.plane_type.value
    sort_option := a.sort_option.value
    filters := a.filters
    start_index := a.start_index
    end_index := a.end_index }

/-- `scrape_flights` from `scrapper.py`.  `.error` is a `ValueError`
raised before the browser session opens (index validation or URL
generation); every exception inside the session is caught by the
top-level handler (lines 309-320) and converted to an error response
carrying the exception text. -/
def scrape_flights (bm : BrowserModel) (a : ScrapeArgs) : Except String ScrapeReport :=
  if a.end_index < a.start_index then
    Except.error "end_index must be greater than or equal to start_index"
  else do
    let search_url ← generate_search_url a.departure_airport a.arrival_airport
      a.departure_date a.return_date a.passengers a.plane_type a.sort_option a.filters
    let params := mkSearchParams search_url a
    match scrapeBody bm a params with
    | Except.ok response => Except.ok response
    | Except.error e => Except.ok (errorReport ("Error occurred: " ++ e) params)


/-! ## main.py — date adjustment in the tool facade -/

/-- Gregorian leap-year rule, as implemented by Python's `datetime`. -/
def isLeap (y : Nat) : Bool :=
  (y % 4 == 0 && y % 100 != 0) || y % 400 == 0

/-- Number of days of month `m` of year `y` (0 for an invalid month). -/
def daysInMonth (y m : Nat) : Nat :=
  if m = 2 then (if isLeap y then 29 else 28)
  else if m = 1 || m = 3 || m = 5 || m = 7 || m = 8 || m = 10 || m = 12 then 31
  else if m = 4 || m = 6 || m = 9 || m = 11 then 30
  else 0

/-- Calendar validity of year/month/day, as `datetime.strptime` with
`"%Y-%m-%d"` checks it: the year must lie within `datetime.MINYEAR = 1`
and `datetime.MAXYEAR = 9999` (year 0 raises
`ValueError: year 0 is out of range`), the month within 1..12 and the
day within the month. -/
def validDate (y m d : Nat) : Bool :=
  1 ≤ y && y ≤ 9999 && 1 ≤ m && m ≤ 12 && 1 ≤ d && d ≤ daysInMonth y m

/-- Read the `(year, month, day)` components out of a string already
known to match `^\d{4}-\d{2}-\d{2}$`. -/
def parseDate (s : String) : Option (Nat × Nat × Nat) :=
  match s.toList with
  | [a, b, c, d, h1, e, f, h2, g, h] =>
    if h1 = '-' && h2 = '-' && [a, b, c, d, e, f, g, h].all Char.isDigit then
      some (digitsVal [a, b, c, d], digitsVal [e, f], digitsVal [g, h])
    else none
  | _ => none

/-- Zero-padded two-digit rendering, as `strftime("%m")`/`strftime("%d")`. -/
def twoDigit (n : Nat) : String :=
  if n < 10 then "0" ++ toString n else toString n

/-- `YYYY-MM-DD` rendering of a date whose year has four digits. -/
def fmtDate (y m d : Nat) : String :=
  toString y ++ "-" ++ twoDigit m ++ "-" ++ twoDigit d

/-- Lines 76-84 (resp. 87-96) of `main.py`: validate one date of
`scrape_flights_tool` and, when its year is earlier than the current
year, rewrite the year to the current year keeping month and day
(`f"{current_year}-{date.strftime('%m-%d')}"`).  `.error` carries the
early-return rejection text; `fmtL`/`parseL` are the two message labels
("departure" or "return"). -/
def adjustToolDate (label : String) (currentYear : Nat) (s : String) :
    Except String String :=
  if !matchDate s then
    Except.error ("Invalid " ++ label ++ " date format: Must be YYYY-MM-DD.")
  else
    match parseDate s with
    | some (y, m, d) =>
      if validDate y m d then
        if y < currentYear then Except.ok (toString currentYear ++ "-" ++ twoDigit m ++ "-" ++ twoDigit d)
        else Except.ok s
      else Except.error ("Invalid " ++ label ++ " date: Unable to parse date.")
    | none => Except.error ("Invalid " ++ label ++ " date format: Must be YYYY-MM-DD.")

/-- Lines 72-107 of `main.py`, restricted to the date handling: adjust
the departure date, adjust the return date when one is given, then
re-run the format checks of lines 104-107 on the adjusted values.
Returns the dates that are later passed to the URL builder and the
scraper; `.error` is the rejection text returned to the caller. -/
def normalizeToolDates (currentYear : Nat) (departure_date : String)
    (return_date : Option String) : Except String (String × Option String) := do
  let dep ← adjustToolDate "departure" currentYear departure_date
  let ret ← match return_date with
    | some r =>
      if truthyStr (some r) then do
        let r2 ← adjustToolDate "return" currentYear r
        pure (some r2)
      else pure (some r)
    | none => pure none
  if !matchDate dep then
    Except.error "Invalid departure date format: Must be YYYY-MM-DD."
  else if truthyStr ret && !matchDate (ret.getD "") then
    Except.error "Invalid return date format: Must be YYYY-MM-DD."
  else
    pure (dep, ret)

example : normalizeToolDates 2025 "2023-07-01" (some "2023-07-25") =
    Except.ok ("2025-07-01", some "2025-07-25") := rfl
example : normalizeToolDates 2025 "2025-13-01" none =
    Except.error "Invalid departure date: Unable to parse date." := rfl
example : normalizeToolDates 2025 "0000-02-15" none =
    Except.error "Invalid departure date: Unable to parse date." := rfl


/-! ## Claim theorems -/

/-- Claim C1, counterexample: for a missing leg subtree the source
returns the empty dict `{}` (modelled `none`), not a `FlightLeg` with
every field at its sentinel default, so the claim as stated is false. -/
theorem C1_counterexample :
    parse_flight_leg none = Except.ok none ∧
    parse_flight_leg none ≠ Except.ok (some (sentinelFlightLeg "N/A" "N/A")) := by
  refine ⟨rfl, fun h => ?_⟩
  injection h with h2
  exact Option.noConfusion h2

/-- Claim C1, amended: for a present but empty leg subtree (every query
comes back empty, in particular no `.EFvI` element) the Leg Parser
returns, without raising, a `FlightLeg` with every field at its sentinel
default — times "N/A", airports `{code "N/A", name "N/A"}`, duration
"N/A", airlines `["N/A"]`, 0 stops, no stop details, no next-day
arrival; for a missing subtree it returns, without raising, the empty
record `{}` instead. -/
theorem C1_amended_theorem :
    parse_flight_leg (some emptyLegElem) =
      Except.ok (some
        { departureTime := "N/A"
          departureAirport := { code := "N/A", name := "N/A" }
          arrivalTime := "N/A"
          arrivalAirport := { code := "N/A", name := "N/A" }
          duration := "N/A"
          airlines := ["N/A"]
          stops := 0
          stopDetails := []
          nextDayArrival := false }) ∧
    parse_flight_leg none = Except.ok none :=
  ⟨rfl, rfl⟩

/-- Claim C2, counterexample: a leg subtree whose `.EFvI` element exists
but whose stops-text element has empty inner text makes
`inner_text().split()[0]` raise `IndexError`, so stop-count extraction
does not "never raise". -/
theorem C2_counterexample :
    parse_flight_leg (some emptyStopsTextLegElem) =
      Except.error "list index out of range" := rfl

/-- Claim C2, amended: a missing stops element defaults the count to 0;
stops text with at least one whitespace-separated token never raises —
a numeric first token parses as the count, and any other such text
(including the literal "direct") yields 0; but a present stops element
whose text has no whitespace-separated token (empty or all-whitespace)
raises `IndexError`, which only the orchestrator's top-level handler
catches. -/
theorem C2_amended_theorem :
    (∀ t tok rest, pySplit t = tok :: rest →
      extractStops (some t) = Except.ok (if pyIsDigit tok then pyToNat tok else 0)) ∧
    extractStops none = Except.ok 0 ∧
    (∀ t, pySplit t = [] →
      extractStops (some t) = Except.error "list index out of range") := by
  refine ⟨fun t tok rest h => ?_, rfl, fun t h => ?_⟩
  · simp only [extractStops, h]
    by_cases hd : pyIsDigit tok
    · simp [hd]
    · simp only [hd, if_false, Bool.false_eq_true]
      split <;> rfl
  · simp [extractStops, h]

/-- Witness for the amended claim C2 at concrete inputs. -/
theorem C2_amended_witness :
    extractStops (some "2 stops") = Except.ok 2 ∧
    extractStops (some " ") = Except.error "list index out of range" :=
  ⟨(C2_amended_theorem.1 "2 stops" "2" ["stops"] rfl).trans rfl,
   C2_amended_theorem.2.2 " " rfl⟩

/-- `target + 1` iterations of fuel always let the pagination loop
finish, agreeing with its total (well-founded) form: each non-final
iteration strictly increases the card count, which starts ≥ 0 and is
capped by `target` while the loop continues. -/
theorem paginateRun_eq (bm : BrowserModel) (target : Nat) :
    ∀ fuel clicks, target ≤ (bm.cardsAfter clicks).length + fuel →
      paginateRun bm target (fuel + 1) clicks = some (paginateClicks bm target clicks) := by
  intro fuel
  induction fuel with
  | zero =>
    intro clicks h
    rw [paginateClicks]
    have h1 : (bm.cardsAfter clicks).length ≥ target := by omega
    simp only [paginateRun, h1, if_true, ge_iff_le]
  | succ n ih =>
    intro clicks h
    rw [paginateClicks]
    simp only [paginateRun]
    by_cases h1 : (bm.cardsAfter clicks).length ≥ target
    · simp [h1]
    · simp only [ge_iff_le, h1, if_false]
      by_cases h2 : bm.showMore clicks
      · simp only [h2, Bool.not_true, Bool.false_eq_true, if_false]
        by_cases h3 : bm.clickFails clicks
        · simp [h3]
        · simp only [h3, Bool.false_eq_true, if_false]
          by_cases h4 : (bm.cardsAfter (clicks + 1)).length ≤ (bm.cardsAfter clicks).length
          · simp [h4]
          · simp only [h4, if_false, dif_neg]
            exact ih (clicks + 1) (by omega)
      · simp [h2]

/-- Claim C3: for every page behavior (the materialized card count being
a function of the number of "show more" clicks performed, including
behaviors where clicking never increases it), the orchestrator's
pagination loop terminates within `end_index + 2` iterations — the
fuel-bounded loop with `target + 1` fuel (where `target = end_index + 1`)
already returns, and agrees with the loop's value. -/
theorem C3_pagination_terminates (bm : BrowserModel) (target : Nat) :
    paginateRun bm target (target + 1) 0 = some (paginateClicks bm target 0) :=
  paginateRun_eq bm target target 0 (by omega)

/-- Claim C6: for the YYZ-HKG round trip of the end-to-end scenario
(2 adults, economy, cheapest sort, max price 6000), the URL Builder
produces exactly the base search URL followed by the path
`YYZ-HKG/2025-07-01/2025-07-25/2adults/economy` and the query
`sort=price_a&fs=price=-6000`, so the path and query begin as the claim
states. -/
theorem C6_url_for_yyz_hkg :
    generate_search_url "YYZ" "HKG" "2025-07-01" (some "2025-07-25")
      { adults := 2, students := 0, children := [] }
      PlaneType.ECONOMY SortOption.CHEAPEST (some { max_price := some 6000 }) =
    Except.ok (BASE_SEARCH_URL ++ "/" ++
      "YYZ-HKG/2025-07-01/2025-07-25/2adults/economy" ++ "?" ++
      "sort=price_a&fs=price=-6000") := rfl


/-- Bind on `Except` applied to a success, reduced. -/
theorem exceptBind_ok {α β : Type} (a : α) (f : α → Except String β) :
    (Except.ok a >>= f) = f a := rfl

/-- Bind on `Except` applied to a failure, reduced. -/
theorem exceptBind_error {α β : Type} (e : String) (f : α → Except String β) :
    ((Except.error e : Except String α) >>= f) = Except.error e := rfl

/-- Claim C4: once index validation and URL generation have succeeded,
`scrape_flights` always returns a report value: either the report the
session body produced, or — when the body raised — the top-level
handler's report with status `no_flights_found`, `total_results` 0 and
a message carrying the exception text.  No fault propagates. -/
theorem C4_top_level_catch (bm : BrowserModel) (a : ScrapeArgs) (u : String)
    (hv : ¬ a.end_index < a.start_index)
    (hu : generate_search_url a.departure_airport a.arrival_airport a.departure_date
      a.return_date a.passengers a.plane_type a.sort_option a.filters = Except.ok u) :
    ∃ r, scrape_flights bm a = Except.ok r ∧
      (scrapeBody bm a (mkSearchParams u a) = Except.ok r ∨
        ∃ e, scrapeBody bm a (mkSearchParams u a) = Except.error e ∧
          r = errorReport ("Error occurred: " ++ e) (mkSearchParams u a) ∧
          r.status = "no_flights_found" ∧ r.total_results = 0 ∧
          r.message = some ("Error occurred: " ++ e)) := by
  rcases hb : scrapeBody bm a (mkSearchParams u a) with e | r
  · refine ⟨errorReport ("Error occurred: " ++ e) (mkSearchParams u a), ?_,
      Or.inr ⟨e, rfl, rfl, rfl, rfl, rfl⟩⟩
    simp only [scrape_flights, hv, if_false, hu, exceptBind_ok, hb]
  · refine ⟨r, ?_, Or.inl rfl⟩
    simp only [scrape_flights, hv, if_false, hu, exceptBind_ok, hb]

/-- A browser model on which all three navigation attempts fail. -/
def allNavFailModel : BrowserModel :=
  { navFails := fun _ => true
    noResultsElem := false
    waitResultsFail := none
    cardsAfter := fun _ => []
    showMore := fun _ => false
    clickFails := fun _ => false }

/-- The arguments of the end-to-end example scenario. -/
def exampleArgs : ScrapeArgs :=
  { departure_airport := "YYZ"
    arrival_airport := "HKG"
    departure_date := "2025-07-01"
    return_date := some "2025-07-25"
    passengers := { adults := 2, students := 0, children := [] }
    plane_type := PlaneType.ECONOMY
    sort_option := SortOption.CHEAPEST
    filters := some { max_price := some 6000 }
    start_index := 0
    end_index := 15 }

/-- Witness for claim C4 at a concrete input. -/
theorem C4_top_level_catch_witness :
    ∃ r, scrape_flights allNavFailModel exampleArgs = Except.ok r ∧
      (scrapeBody allNavFailModel exampleArgs
          (mkSearchParams (BASE_SEARCH_URL ++ "/" ++
            "YYZ-HKG/2025-07-01/2025-07-25/2adults/economy" ++ "?" ++
            "sort=price_a&fs=price=-6000") exampleArgs) = Except.ok r ∨
        ∃ e, scrapeBody allNavFailModel exampleArgs
            (mkSearchParams (BASE_SEARCH_URL ++ "/" ++
              "YYZ-HKG/2025-07-01/2025-07-25/2adults/economy" ++ "?" ++
              "sort=price_a&fs=price=-6000") exampleArgs) = Except.error e ∧
          r = errorReport ("Error occurred: " ++ e)
              (mkSearchParams (BASE_SEARCH_URL ++ "/" ++
                "YYZ-HKG/2025-07-01/2025-07-25/2adults/economy" ++ "?" ++
                "sort=price_a&fs=price=-6000") exampleArgs) ∧
          r.status = "no_flights_found" ∧ r.total_results = 0 ∧
          r.message = some ("Error occurred: " ++ e)) :=
  C4_top_level_catch allNavFailModel exampleArgs _ (by decide) rfl


/-- The card-window predicate of the extraction loop: index inside
`[si, ei]` and not an advertisement card. -/
def keepCard (si ei : Nat) (p : Nat × CardElem) : Bool :=
  decide (si ≤ p.1) && decide (p.1 ≤ ei) && (p.2.hasLegList && !p.2.hasAdBadge)

/-- The extraction loop equals, declaratively: filter the enumerated
cards to the requested window minus ads, then extract each survivor in
page order. -/
theorem extractLoop_eq_filter (si ei : Nat) :
    ∀ (l : List CardElem) (idx : Nat),
      extractLoop si ei l idx =
        ((List.enumFrom idx l).filter (keepCard si ei)).mapM
          (fun p => extractFlight p.2) := by
  intro l
  induction l with
  | nil =>
    intro idx
    simp only [extractLoop, List.enumFrom, List.filter_nil, List.mapM_nil]
    rfl
  | cons x xs ih =>
    intro idx
    have henum : List.enumFrom idx (x :: xs) = (idx, x) :: List.enumFrom (idx + 1) xs := rfl
    rw [henum, List.filter_cons]
    by_cases h1 : (decide (idx < si) || decide (idx > ei)) = true
    · have hk : keepCard si ei (idx, x) = false := by
        simp only [Bool.or_eq_true, decide_eq_true_eq, gt_iff_lt] at h1
        simp only [keepCard]
        rcases h1 with h | h
        · simp [decide_eq_false (Nat.not_le.mpr h)]
        · simp [decide_eq_false (Nat.not_le.mpr h)]
      simp only [extractLoop, h1, if_true, hk, Bool.false_eq_true, if_false, ih (idx + 1)]
    · by_cases h2 : (!x.hasLegList || x.hasAdBadge) = true
      · have hk : keepCard si ei (idx, x) = false := by
          simp only [keepCard]
          rcases Bool.or_eq_true _ _ |>.mp h2 with h | h
          · simp only [Bool.not_eq_true'] at h
            simp [h]
          · simp [h]
        simp only [extractLoop, h1, Bool.false_eq_true, if_false, h2, if_true, hk,
          ih (idx + 1)]
      · have hk : keepCard si ei (idx, x) = true := by
          simp only [Bool.or_eq_true, decide_eq_true_eq, gt_iff_lt, not_or, not_lt] at h1
          simp only [Bool.or_eq_true, not_or, Bool.not_eq_true', Bool.not_eq_true] at h2
          simp only [keepCard, h2.1, h2.2, Bool.not_false, Bool.and_true, Bool.and_eq_true,
            decide_eq_true_eq]
          exact ⟨h1.1, h1.2⟩
        rw [hk]
        simp only [if_true, List.mapM_cons]
        simp only [extractLoop, h1, Bool.false_eq_true, if_false, h2, ih (idx + 1)]
        rfl



/-- The extraction loop starting at index `idx` returns at most
`ei + 1 - idx` flights. -/
theorem extractLoop_length_le (si ei : Nat) :
    ∀ (l : List CardElem) (idx : Nat) (L : List Flight),
      extractLoop si ei l idx = Except.ok L → L.length ≤ ei + 1 - idx := by
  intro l
  induction l with
  | nil =>
    intro idx L h
    simp only [extractLoop, Except.ok.injEq] at h
    subst h
    simp
  | cons x xs ih =>
    intro idx L h
    simp only [extractLoop] at h
    by_cases h1 : (decide (idx < si) || decide (idx > ei)) = true
    · rw [if_pos h1] at h
      have := ih (idx + 1) L h
      omega
    · rw [if_neg h1] at h
      by_cases h2 : (!x.hasLegList || x.hasAdBadge) = true
      · rw [if_pos h2] at h
        have := ih (idx + 1) L h
        omega
      · rw [if_neg h2] at h
        rcases hf : extractFlight x with e | fl
        · rw [hf, exceptBind_error] at h
          cases h
        · rw [hf, exceptBind_ok] at h
          rcases ht : extractLoop si ei xs (idx + 1) with e | tl
          · rw [ht, exceptBind_error] at h
            cases h
          · rw [ht, exceptBind_ok] at h
            have hlen := ih (idx + 1) tl ht
            have hidx : ¬ idx > ei := by
              intro hgt
              exact h1 (by simp [hgt])
            simp only [Except.ok.injEq] at h
            subst h
            simp only [List.length_cons]
            omega

/-- The extraction loop, entered at an index at or before the window
start, returns at most `ei + 1 - si` flights — at most the size of the
requested window `[si, ei]`. -/
theorem extractLoop_length_le_window (si ei : Nat) :
    ∀ (l : List CardElem) (idx : Nat) (L : List Flight), idx ≤ si →
      extractLoop si ei l idx = Except.ok L → L.length ≤ ei + 1 - si := by
  intro l
  induction l with
  | nil =>
    intro idx L _ h
    simp only [extractLoop, Except.ok.injEq] at h
    subst h
    simp
  | cons x xs ih =>
    intro idx L hle h
    by_cases hlt : idx < si
    · simp only [extractLoop] at h
      rw [if_pos (by simp [hlt])] at h
      exact ih (idx + 1) L (by omega) h
    · have hidx : idx = si := by omega
      have := extractLoop_length_le si ei (x :: xs) idx L h
      omega


/-- Claim C5: in a scrape that reaches the extraction phase (navigation
succeeded within 3 attempts, no no-results indicator, result container
found): with zero materialized cards the report is `no_flights_found`
with no flights and `total_results` 0; and whenever a success report is
produced, `total_results` is the total materialized card count, the
advisory message is present exactly when that count is below
`end_index + 1`, and the flights list is exactly the in-order
extraction of the non-ad cards whose indices lie in
`[start_index, end_index]` — hence it has at most
`end_index - start_index + 1` entries. -/
theorem C5_extraction_window (bm : BrowserModel) (a : ScrapeArgs) (r : ScrapeReport)
    (hnav : (bm.navFails 0 && bm.navFails 1 && bm.navFails 2) = false)
    (hnores : bm.noResultsElem = false)
    (hwait : bm.waitResultsFail = none)
    (hr : scrape_flights bm a = Except.ok r) :
    (bm.cardsAfter (finalClicks bm (a.end_index + 1)) = [] →
      r.status = "no_flights_found" ∧ r.flights = none ∧ r.total_results = 0) ∧
    (r.status = "success" →
      ∃ L, r.flights = some L ∧
        r.total_results = (bm.cardsAfter (finalClicks bm (a.end_index + 1))).length ∧
        (r.message.isSome ↔
          (bm.cardsAfter (finalClicks bm (a.end_index + 1))).length < a.end_index + 1) ∧
        L.length ≤ a.end_index + 1 - a.start_index ∧
        ((List.enumFrom 0 (bm.cardsAfter (finalClicks bm (a.end_index + 1)))).filter
            (keepCard a.start_index a.end_index)).mapM (fun p => extractFlight p.2) =
          Except.ok L) := by
  by_cases hv : a.end_index < a.start_index
  · rw [scrape_flights, if_pos hv] at hr
    cases hr
  · rcases hg : generate_search_url a.departure_airport a.arrival_airport a.departure_date
        a.return_date a.passengers a.plane_type a.sort_option a.filters with e | u
    · rw [scrape_flights, if_neg hv, hg, exceptBind_error] at hr
      cases hr
    · rw [scrape_flights, if_neg hv, hg, exceptBind_ok] at hr
      simp only [scrapeBody, hnav, hnores, hwait, Bool.false_eq_true, if_false] at hr
      by_cases hempty : (bm.cardsAfter (finalClicks bm (a.end_index + 1))).isEmpty
      · rw [if_pos hempty] at hr
        simp only [Except.ok.injEq] at hr
        subst hr
        refine ⟨fun _ => ⟨rfl, rfl, rfl⟩, fun hsucc => ?_⟩
        simp [errorReport] at hsucc
      · rw [if_neg hempty] at hr
        have hne : bm.cardsAfter (finalClicks bm (a.end_index + 1)) ≠ [] := by
          intro hnil
          exact hempty (by simp [hnil])
        rcases he : extractLoop a.start_index a.end_index
            (bm.cardsAfter (finalClicks bm (a.end_index + 1))) 0 with e | L
        · rw [he, exceptBind_error] at hr
          simp only [Except.ok.injEq] at hr
          subst hr
          refine ⟨fun hnil => absurd hnil hne, fun hsucc => ?_⟩
          simp [errorReport] at hsucc
        · rw [he, exceptBind_ok] at hr
          simp only [Except.ok.injEq] at hr
          subst hr
          refine ⟨fun hnil => absurd hnil hne, fun _ => ?_⟩
          refine ⟨L, rfl, rfl, ?_, ?_, ?_⟩
          · by_cases hm : (bm.cardsAfter (finalClicks bm (a.end_index + 1))).length <
                a.end_index + 1
            · simp [hm]
            · simp [hm]
          · exact extractLoop_length_le_window a.start_index a.end_index _ 0 L
              (Nat.zero_le _) he
          · rw [← extractLoop_eq_filter]
            exact he


/-- A minimal non-advertisement result card. -/
def simpleCard : CardElem :=
  { hasLegList := true
    hasAdBadge := false
    priceText := some "$714"
    fareTypesText := none
    availableSitesText := none
    bookingLinkHref := none
    carryOnText := none
    checkedBagsText := none
    outboundLeg := none
    returnLeg := none
    hasMultipleAirlinesText := false
    bookingButtonText := none }

/-- A browser session that loads first try and shows one card. -/
def oneCardModel : BrowserModel :=
  { navFails := fun _ => false
    noResultsElem := false
    waitResultsFail := none
    cardsAfter := fun _ => [simpleCard]
    showMore := fun _ => false
    clickFails := fun _ => false }

/-- The report `scrape_flights` produces on `oneCardModel` with the
example arguments. -/
def exampleSuccessReport : ScrapeReport :=
  { status := "success"
    flights := some
      [{ flightDetails :=
          { price := "$714", fareTypes := [], availableSites := 0,
            carryOn := 0, checkedBags := 0,
            bookingLink := "https://www.ca.kayak.com" }
         outboundFlight := none
         returnFlight := none
         metadata := { multipleAirlines := false, bookingButtonText := "N/A" } }]
    total_results := 1
    message := some "Requested up to index 15, but only 1 results available."
    search_parameters := mkSearchParams (BASE_SEARCH_URL ++ "/" ++
      "YYZ-HKG/2025-07-01/2025-07-25/2adults/economy" ++ "?" ++
      "sort=price_a&fs=price=-6000") exampleArgs }

example : scrape_flights oneCardModel exampleArgs = Except.ok exampleSuccessReport := rfl

/-- Witness for claim C5 at a concrete one-card session. -/
theorem C5_extraction_window_witness :
    (oneCardModel.cardsAfter (finalClicks oneCardModel (exampleArgs.end_index + 1)) = [] →
      exampleSuccessReport.status = "no_flights_found" ∧
      exampleSuccessReport.flights = none ∧ exampleSuccessReport.total_results = 0) ∧
    (exampleSuccessReport.status = "success" →
      ∃ L, exampleSuccessReport.flights = some L ∧
        exampleSuccessReport.total_results =
          (oneCardModel.cardsAfter
            (finalClicks oneCardModel (exampleArgs.end_index + 1))).length ∧
        (exampleSuccessReport.message.isSome ↔
          (oneCardModel.cardsAfter
            (finalClicks oneCardModel (exampleArgs.end_index + 1))).length <
              exampleArgs.end_index + 1) ∧
        L.length ≤ exampleArgs.end_index + 1 - exampleArgs.start_index ∧
        ((List.enumFrom 0 (oneCardModel.cardsAfter
              (finalClicks oneCardModel (exampleArgs.end_index + 1)))).filter
            (keepCard exampleArgs.start_index exampleArgs.end_index)).mapM
          (fun p => extractFlight p.2) = Except.ok L) :=
  C5_extraction_window oneCardModel exampleArgs exampleSuccessReport rfl rfl rfl rfl


/-! ## Stop-detail lemmas (claim C9) -/

/-- A string of the shape `{digits}h {digits}m`, i.e. group 1 of the
layover pattern `(\d+h \d+m) layover`. -/
def layoverShape (s : String) : Prop :=
  ∃ d1 d2 : List Char, d1 ≠ [] ∧ d2 ≠ [] ∧
    d1.all Char.isDigit = true ∧ d2.all Char.isDigit = true ∧
    s = String.mk (d1 ++ 'h' :: ' ' :: d2 ++ ['m'])

/-- The first component of `takeDigits` holds only digits. -/
theorem takeDigits_fst_all : ∀ cs : List Char, ((takeDigits cs).1).all Char.isDigit = true := by
  intro cs
  induction cs with
  | nil => rfl
  | cons c cs ih =>
    by_cases hc : c.isDigit
    · simp [takeDigits, hc, ih]
    · simp [takeDigits, hc]

/-- A successful anchored match of the layover pattern yields a string
of the `{digits}h {digits}m` shape. -/
theorem matchLayoverHere_shape (cs : List Char) (s : String)
    (h : matchLayoverHere cs = some s) : layoverShape s := by
  unfold matchLayoverHere at h
  rcases htd : takeDigits cs with ⟨d1, r1⟩
  rw [htd] at h
  simp only at h
  by_cases h1 : d1.isEmpty
  · simp [h1] at h
  · simp only [h1, Bool.false_eq_true, if_false] at h
    split at h
    next r2 =>
      rcases htd2 : takeDigits r2 with ⟨d2, r3⟩
      rw [htd2] at h
      simp only at h
      by_cases h2 : d2.isEmpty
      · simp [h2] at h
      · simp only [h2, Bool.false_eq_true, if_false] at h
        split at h
        next =>
          have hs : String.mk (d1 ++ 'h' :: ' ' :: d2 ++ ['m']) = s := by
            injection h
          have hd1 : d1.all Char.isDigit = true := by
            have := takeDigits_fst_all cs
            rw [htd] at this
            exact this
          have hd2 : d2.all Char.isDigit = true := by
            have := takeDigits_fst_all r2
            rw [htd2] at this
            exact this
          exact ⟨d1, d2, by simpa using h1, by simpa using h2, hd1, hd2, hs.symm⟩
        next => cases h
    next => cases h
  
/-- A successful search for the layover pattern yields a string of the
`{digits}h {digits}m` shape. -/
theorem searchLayover_shape : ∀ (cs : List Char) (s : String),
    searchLayover cs = some s → layoverShape s := by
  intro cs
  induction cs with
  | nil => intro s h; cases h
  | cons c cs ih =>
    intro s h
    unfold searchLayover at h
    rcases hm : matchLayoverHere (c :: cs) with _ | s2
    · rw [hm] at h
      exact ih s h
    · rw [hm] at h
      injection h with h2
      exact h2 ▸ matchLayoverHere_shape (c :: cs) s2 hm

/-- Every stop detail produced by the per-marker extraction has an
airport code different from the leg's own two codes, and a layover
duration that is either the `"N/A"` default or of the pattern shape. -/
theorem parseStopElem_props (dep arr : String) (se : StopElem) (d : StopDetail)
    (h : parseStopElem dep arr se = some d) :
    d.airportCode ≠ dep ∧ d.airportCode ≠ arr ∧
    (d.layoverDuration = "N/A" ∨ layoverShape d.layoverDuration) := by
  unfold parseStopElem at h
  split at h
  · cases h
  · split at h
    · dsimp only at h
      split at h
      · cases h
      · split at h
        · cases h
        · cases h
    · dsimp only at h
      split at h
      · cases h
      · split at h
        next hda => cases h
        next hda =>
          simp only [Option.some.injEq] at h
          subst h
          rw [Bool.or_eq_true, decide_eq_true_eq, decide_eq_true_eq, not_or] at hda
          refine ⟨hda.1, hda.2, ?_⟩
          rcases hsl : searchLayover _ with _ | s2
          · simp [hsl]
          · simp only [hsl, Option.getD_some]
            exact Or.inr (searchLayover_shape _ s2 hsl)

/-- Deduplication keeps only codes not in `seen`. -/
theorem dedupByCode_not_seen : ∀ (l : List StopDetail) (seen : List String)
    (d : StopDetail), d ∈ dedupByCode l seen → d.airportCode ∉ seen := by
  intro l
  induction l with
  | nil => intro seen d h; cases h
  | cons x xs ih =>
    intro seen d h
    unfold dedupByCode at h
    by_cases hx : x.airportCode ∈ seen
    · rw [if_pos hx] at h
      exact ih seen d h
    · rw [if_neg hx] at h
      rcases List.mem_cons.mp h with rfl | h2
      · exact hx
      · intro hmem
        exact ih _ d h2 (List.mem_cons_of_mem _ hmem)

/-- Deduplicated stop details have pairwise distinct airport codes. -/
theorem dedupByCode_codes_nodup : ∀ (l : List StopDetail) (seen : List String),
    ((dedupByCode l seen).map (fun d => d.airportCode)).Nodup := by
  intro l
  induction l with
  | nil => intro seen; simp [dedupByCode]
  | cons x xs ih =>
    intro seen
    unfold dedupByCode
    by_cases hx : x.airportCode ∈ seen
    · rw [if_pos hx]
      exact ih seen
    · rw [if_neg hx]
      simp only [List.map_cons, List.nodup_cons]
      refine ⟨?_, ih _⟩
      intro hmem
      rcases List.mem_map.mp hmem with ⟨d, hd, hcode⟩
      exact dedupByCode_not_seen xs _ d hd (hcode ▸ List.mem_cons_self _ _)

/-- Deduplication yields a sublist (page order is preserved). -/
theorem dedupByCode_sublist : ∀ (l : List StopDetail) (seen : List String),
    List.Sublist (dedupByCode l seen) l := by
  intro l
  induction l with
  | nil => intro seen; simp [dedupByCode]
  | cons x xs ih =>
    intro seen
    unfold dedupByCode
    by_cases hx : x.airportCode ∈ seen
    · rw [if_pos hx]
      exact List.Sublist.cons x (ih seen)
    · rw [if_neg hx]
      exact List.Sublist.cons₂ x (ih _)

/-- Deduplication keeps the first occurrence of each airport code: every
kept entry is the first entry of the raw list bearing its code. -/
theorem dedupByCode_find_first : ∀ (l : List StopDetail) (seen : List String)
    (d : StopDetail), d ∈ dedupByCode l seen →
      l.find? (fun d2 => d2.airportCode == d.airportCode) = some d := by
  intro l
  induction l with
  | nil => intro seen d h; cases h
  | cons x xs ih =>
    intro seen d h
    unfold dedupByCode at h
    by_cases hx : x.airportCode ∈ seen
    · rw [if_pos hx] at h
      have hne : x.airportCode ≠ d.airportCode := by
        intro heq
        exact dedupByCode_not_seen xs seen d h (heq ▸ hx)
      rw [List.find?_cons_of_neg _ (by simpa using hne)]
      exact ih seen d h
    · rw [if_neg hx] at h
      rcases List.mem_cons.mp h with rfl | h2
      · rw [List.find?_cons_of_pos _ (by simp)]
      · have hne : x.airportCode ≠ d.airportCode := by
          intro heq
          exact dedupByCode_not_seen xs _ d h2 (heq ▸ List.mem_cons_self _ _)
        rw [List.find?_cons_of_neg _ (by simpa using hne)]
        exact ih _ d h2


/-- Combined properties of the deduplicated stop-detail list built from
the raw per-marker extraction against leg codes `A` and `B`. -/
theorem dedupRaw_props (A B : String) (ses : List StopElem) :
    (∀ d ∈ dedupByCode (rawStopDetails A B ses) [],
      d.airportCode ≠ A ∧ d.airportCode ≠ B) ∧
    ((dedupByCode (rawStopDetails A B ses) []).map (fun d => d.airportCode)).Nodup ∧
    List.Sublist (dedupByCode (rawStopDetails A B ses) []) (rawStopDetails A B ses) ∧
    (∀ d ∈ dedupByCode (rawStopDetails A B ses) [],
      (rawStopDetails A B ses).find? (fun d2 => d2.airportCode == d.airportCode) = some d) ∧
    (∀ d ∈ dedupByCode (rawStopDetails A B ses) [],
      d.layoverDuration = "N/A" ∨ layoverShape d.layoverDuration) := by
  have hmem : ∀ d ∈ dedupByCode (rawStopDetails A B ses) [], d ∈ rawStopDetails A B ses :=
    fun d hd => (dedupByCode_sublist _ _).subset hd
  have hraw : ∀ d ∈ rawStopDetails A B ses,
      d.airportCode ≠ A ∧ d.airportCode ≠ B ∧
      (d.layoverDuration = "N/A" ∨ layoverShape d.layoverDuration) := by
    intro d hd
    rcases List.mem_filterMap.mp hd with ⟨se, _, hparse⟩
    exact parseStopElem_props A B se d hparse
  refine ⟨fun d hd => ⟨(hraw d (hmem d hd)).1, (hraw d (hmem d hd)).2.1⟩,
    dedupByCode_codes_nodup _ _, dedupByCode_sublist _ _,
    fun d hd => dedupByCode_find_first _ _ d hd,
    fun d hd => (hraw d (hmem d hd)).2.2⟩

/-- Claim C9: in every successfully parsed leg with a positive stop
count, the stop-detail list (1) excludes any stop marker whose airport
code equals the leg's own departure or arrival code, (2) has pairwise
distinct airport codes, is a sublist of the raw per-marker extraction
(order preserved) and keeps, for each code, exactly the first raw
occurrence, and (3) carries a layover duration that is either parsed by
the `{digits}h {digits}m layover` pattern or the `"N/A"` default. -/
theorem C9_stop_details (e : LegElem) (fl : FlightLeg)
    (hp : parse_flight_leg (some e) = Except.ok (some fl))
    (hstops : 0 < fl.stops) :
    (∀ d ∈ fl.stopDetails,
      d.airportCode ≠ fl.departureAirport.code ∧ d.airportCode ≠ fl.arrivalAirport.code) ∧
    (fl.stopDetails.map (fun d => d.airportCode)).Nodup ∧
    List.Sublist fl.stopDetails
      (rawStopDetails fl.departureAirport.code fl.arrivalAirport.code e.stopElems) ∧
    (∀ d ∈ fl.stopDetails,
      (rawStopDetails fl.departureAirport.code fl.arrivalAirport.code e.stopElems).find?
        (fun d2 => d2.airportCode == d.airportCode) = some d) ∧
    (∀ d ∈ fl.stopDetails, d.layoverDuration = "N/A" ∨ layoverShape d.layoverDuration) := by
  unfold parse_flight_leg at hp
  dsimp only at hp
  split at hp
  · simp only [Except.ok.injEq, Option.some.injEq] at hp
    subst hp
    simp [sentinelFlightLeg] at hstops
  · rcases hs : extractStops e.stopsText with err | n
    · rw [hs, exceptBind_error] at hp
      cases hp
    · rw [hs, exceptBind_ok] at hp
      simp only [Except.ok.injEq, Option.some.injEq] at hp
      subst hp
      rw [if_pos hstops]
      exact dedupRaw_props _ _ e.stopElems


/-- A concrete round-leg subtree with one stop marker. -/
def stopLegElem : LegElem :=
  { timeSpanTexts := ["8:00 am", "-", "12:00 pm"]
    efvi := some ⟨[⟨["YYZ", "Toronto Pearson"]⟩, ⟨["HKG", "Hong Kong Intl"]⟩]⟩
    durationText := some "20h 30m"
    carrierImgAlts := ["Cathay Pacific"]
    stopsText := some "1 stop"
    stopElems := [⟨some "NRT", some ⟨"2h 30m layover Tokyo Narita", some "Tokyo Narita"⟩⟩]
    hasNextDayElem := true }

/-- The leg record `parse_flight_leg` extracts from `stopLegElem`. -/
def stopFlightLeg : FlightLeg :=
  { departureTime := "8:00 am"
    departureAirport := { code := "YYZ", name := "Toronto Pearson" }
    arrivalTime := "12:00 pm"
    arrivalAirport := { code := "HKG", name := "Hong Kong Intl" }
    duration := "20h 30m"
    airlines := ["Cathay Pacific"]
    stops := 1
    stopDetails := [{ airportCode := "NRT", airportName := "Tokyo Narita",
                      layoverDuration := "2h 30m" }]
    nextDayArrival := true }

example : parse_flight_leg (some stopLegElem) = Except.ok (some stopFlightLeg) := rfl

/-- Witness for claim C9 at a concrete one-stop leg. -/
theorem C9_stop_details_witness :
    (∀ d ∈ stopFlightLeg.stopDetails,
      d.airportCode ≠ stopFlightLeg.departureAirport.code ∧
      d.airportCode ≠ stopFlightLeg.arrivalAirport.code) ∧
    (stopFlightLeg.stopDetails.map (fun d => d.airportCode)).Nodup ∧
    List.Sublist stopFlightLeg.stopDetails
      (rawStopDetails stopFlightLeg.departureAirport.code
        stopFlightLeg.arrivalAirport.code stopLegElem.stopElems) ∧
    (∀ d ∈ stopFlightLeg.stopDetails,
      (rawStopDetails stopFlightLeg.departureAirport.code
          stopFlightLeg.arrivalAirport.code stopLegElem.stopElems).find?
        (fun d2 => d2.airportCode == d.airportCode) = some d) ∧
    (∀ d ∈ stopFlightLeg.stopDetails,
      d.layoverDuration = "N/A" ∨ layoverShape d.layoverDuration) :=
  C9_stop_details stopLegElem stopFlightLeg rfl (by decide)


/-! ## Date-rewrite lemmas (claim C10) -/

/-- Bool check that `twoDigit n` is two digit characters whose decimal
value is `n`. -/
def twoDigitOK (n : Nat) : Bool :=
  match (twoDigit n).data with
  | [c1, c2] => c1.isDigit && c2.isDigit && (digitsVal [c1, c2] == n)
  | _ => false

/-- `twoDigit` round-trips for every value up to 31 (months and days). -/
theorem twoDigitOK_le31 : ∀ n : Nat, n ≤ 31 → twoDigitOK n = true := by decide

/-- Unpacked form of `twoDigitOK`. -/
theorem twoDigit_spec (n : Nat) (h : twoDigitOK n = true) :
    ∃ c1 c2 : Char, (twoDigit n).data = [c1, c2] ∧ c1.isDigit = true ∧
      c2.isDigit = true ∧ digitsVal [c1, c2] = n := by
  unfold twoDigitOK at h
  split at h
  · rename_i c1 c2 heq
    simp only [Bool.and_eq_true, beq_iff_eq] at h
    exact ⟨c1, c2, heq, h.1.1, h.1.2, h.2⟩
  · cases h

/-- `n` renders in decimal as exactly four digit characters. -/
def fourDigitRender (n : Nat) : Prop :=
  ∃ k1 k2 k3 k4 : Char, (toString n).data = [k1, k2, k3, k4] ∧
    k1.isDigit = true ∧ k2.isDigit = true ∧ k3.isDigit = true ∧ k4.isDigit = true ∧
    digitsVal [k1, k2, k3, k4] = n

/-- No month has more than 31 days. -/
theorem daysInMonth_le31 (y m : Nat) : daysInMonth y m ≤ 31 := by
  unfold daysInMonth
  split
  · split <;> omega
  · split
    · omega
    · split <;> omega

/-- The character list of the `YYYY-MM-DD` rendering of a valid date
with a four-digit year. -/
theorem fmtDate_data (y m d : Nat) (hy : fourDigitRender y)
    (hm : m ≤ 31) (hd : d ≤ 31) :
    ∃ k1 k2 k3 k4 e1 e2 f1 f2 : Char,
      (fmtDate y m d).data = [k1, k2, k3, k4, '-', e1, e2, '-', f1, f2] ∧
      ([k1, k2, k3, k4, e1, e2, f1, f2].all Char.isDigit) = true ∧
      digitsVal [k1, k2, k3, k4] = y ∧ digitsVal [e1, e2] = m ∧ digitsVal [f1, f2] = d := by
  rcases hy with ⟨k1, k2, k3, k4, hky, h1, h2, h3, h4, hvy⟩
  rcases twoDigit_spec m (twoDigitOK_le31 m hm) with ⟨e1, e2, hem, he1, he2, hvm⟩
  rcases twoDigit_spec d (twoDigitOK_le31 d hd) with ⟨f1, f2, hfd, hf1, hf2, hvd⟩
  refine ⟨k1, k2, k3, k4, e1, e2, f1, f2, ?_, ?_, hvy, hvm, hvd⟩
  · show (toString y ++ "-" ++ twoDigit m ++ "-" ++ twoDigit d).data = _
    simp only [String.data_append, hky, hem, hfd]
    rfl
  · simp [h1, h2, h3, h4, he1, he2, hf1, hf2]

/-- Claim C10: whenever a tool date is well-formed `YYYY-MM-DD`, names a
valid calendar date, and its year is earlier than the current year
(which renders as four digits), the facade silently rewrites the year to
the current year keeping month and day — both for the departure and the
return label — and date normalization succeeds with the rewritten value
(it is not rejected, and the caller is not informed). -/
theorem C10_year_rewrite (cy : Nat) (s : String) (y m d : Nat)
    (hmatch : matchDate s = true)
    (hparse : parseDate s = some (y, m, d))
    (hvalid : validDate y m d = true)
    (hlt : y < cy)
    (hcy : fourDigitRender cy) :
    adjustToolDate "departure" cy s = Except.ok (fmtDate cy m d) ∧
    adjustToolDate "return" cy s = Except.ok (fmtDate cy m d) ∧
    normalizeToolDates cy s none = Except.ok (fmtDate cy m d, none) ∧
    parseDate (fmtDate cy m d) = some (cy, m, d) ∧
    matchDate (fmtDate cy m d) = true := by
  have hbounds :
      ((((1 ≤ y ∧ y ≤ 9999) ∧ 1 ≤ m) ∧ m ≤ 12) ∧ 1 ≤ d) ∧ d ≤ daysInMonth y m := by
    simpa [validDate, Bool.and_eq_true, decide_eq_true_eq] using hvalid
  have hm31 : m ≤ 31 := by
    have := hbounds.1.1.2
    omega
  have hd31 : d ≤ 31 := le_trans hbounds.2 (daysInMonth_le31 y m)
  rcases fmtDate_data cy m d hcy hm31 hd31 with
    ⟨k1, k2, k3, k4, e1, e2, f1, f2, hdata, hdigits, hvy, hvm, hvd⟩
  simp only [List.all_cons, List.all_nil, Bool.and_eq_true, Bool.and_true] at hdigits
  have hadj : ∀ label : String,
      adjustToolDate label cy s = Except.ok (fmtDate cy m d) := by
    intro label
    unfold adjustToolDate
    rw [hmatch]
    simp only [Bool.not_true, Bool.false_eq_true, if_false, hparse]
    rw [if_pos hvalid, if_pos hlt]
    rfl
  have hmatch2 : matchDate (fmtDate cy m d) = true := by
    unfold matchDate
    show (match (fmtDate cy m d).data with
      | [a, b, c, d, h1, e, f, h2, g, h] =>
        h1 = '-' && h2 = '-' && [a, b, c, d, e, f, g, h].all Char.isDigit
      | _ => false) = true
    rw [hdata]
    simp [hdigits.1, hdigits.2.1, hdigits.2.2.1, hdigits.2.2.2.1,
      hdigits.2.2.2.2.1, hdigits.2.2.2.2.2.1, hdigits.2.2.2.2.2.2]
  have hparse2 : parseDate (fmtDate cy m d) = some (cy, m, d) := by
    unfold parseDate
    show (match (fmtDate cy m d).data with
      | [a, b, c, d, h1, e, f, h2, g, h] =>
        if h1 = '-' && h2 = '-' && [a, b, c, d, e, f, g, h].all Char.isDigit then
          some (digitsVal [a, b, c, d], digitsVal [e, f], digitsVal [g, h])
        else none
      | _ => none) = some (cy, m, d)
    rw [hdata]
    simp [hdigits.1, hdigits.2.1, hdigits.2.2.1, hdigits.2.2.2.1,
      hdigits.2.2.2.2.1, hdigits.2.2.2.2.2.1, hdigits.2.2.2.2.2.2, hvy, hvm, hvd]
  refine ⟨hadj "departure", hadj "return", ?_, hparse2, hmatch2⟩
  unfold normalizeToolDates
  rw [hadj "departure", exceptBind_ok]
  dsimp only
  rw [hmatch2]
  rfl


/-- Witness for claim C10: a 2024 date is rewritten to the current year
2026, keeping month and day, and normalization succeeds. -/
theorem C10_year_rewrite_witness :
    adjustToolDate "departure" 2026 "2024-12-31" = Except.ok (fmtDate 2026 12 31) ∧
    adjustToolDate "return" 2026 "2024-12-31" = Except.ok (fmtDate 2026 12 31) ∧
    normalizeToolDates 2026 "2024-12-31" none = Except.ok (fmtDate 2026 12 31, none) ∧
    parseDate (fmtDate 2026 12 31) = some (2026, 12, 31) ∧
    matchDate (fmtDate 2026 12 31) = true :=
  C10_year_rewrite 2026 "2024-12-31" 2024 12 31 rfl rfl (by decide) (by omega)
    ⟨'2', '0', '2', '6', rfl, rfl, rfl, rfl, rfl, rfl⟩


/-! ## Filter-segment characterization (claim C8) -/

/-- `pure` on `Except` is `Except.ok`. -/
theorem pureExcept_eq {α : Type} (a : α) : (pure a : Except String α) = Except.ok a := rfl

/-- Spec token of a count filter field: present iff the field is set. -/
def tokOptInt (key : String) (v : Option Int) : List String :=
  match v with
  | some n => [key ++ toString n]
  | none => []

/-- Spec token of the max-price field. -/
def tokPrice (v : Option Int) : List String :=
  match v with
  | some n => ["price=-" ++ toString n]
  | none => []

/-- Spec token of an airline-set field: present iff the set is truthy
(non-`None` and non-empty). -/
def tokAirlines (pre : String) (o : Option (List String)) : List String :=
  if truthyList o then [pre ++ String.intercalate "," (o.getD [])] else []

/-- Spec token of the alliance field. -/
def tokAlliance (o : Option Alliance) : List String :=
  match o with
  | some al => ["alliance=" ++ al.value]
  | none => []

/-- The tokens the spec's filter-segment grammar prescribes, in the
fixed order cfc, bfc, stops, price, alliance, include-airlines,
exclude-airlines, wifi, with one token exactly per set field (for the
airline sets: per non-empty set). -/
def filterTokensSpec (f : FlightFilters) : List String :=
  tokOptInt "cfc=" f.carry_on_free ++
  tokOptInt "bfc=" f.checked_bags_free ++
  tokOptInt "stops=" f.stops ++
  tokPrice f.max_price ++
  tokAlliance f.alliance ++
  tokAirlines "airlines=" f.include_airlines ++
  tokAirlines "airlines=-" f.exclude_airlines ++
  (if f.wifi_only then ["wifi=wifi"] else [])

/-- A successful count-field step appends exactly its spec token. -/
theorem addTokNonNeg_ok (emsg key : String) (v : Option Int) (parts q : List String)
    (h : addTokNonNeg emsg key v parts = Except.ok q) :
    q = parts ++ tokOptInt key v := by
  cases v with
  | none =>
    simp only [addTokNonNeg, pureExcept_eq, Except.ok.injEq] at h
    simp [tokOptInt, h.symm]
  | some n =>
    simp only [addTokNonNeg] at h
    by_cases hn : n < 0
    · rw [if_pos hn] at h
      cases h
    · rw [if_neg hn, pureExcept_eq] at h
      simp only [Except.ok.injEq] at h
      simp [tokOptInt, h.symm]

/-- A successful max-price step appends exactly its spec token. -/
theorem addTokPrice_ok (v : Option Int) (parts q : List String)
    (h : addTokPrice v parts = Except.ok q) :
    q = parts ++ tokPrice v := by
  cases v with
  | none =>
    simp only [addTokPrice, pureExcept_eq, Except.ok.injEq] at h
    simp [tokPrice, h.symm]
  | some n =>
    simp only [addTokPrice] at h
    by_cases hn : n ≤ 0
    · rw [if_pos hn] at h
      cases h
    · rw [if_neg hn, pureExcept_eq] at h
      simp only [Except.ok.injEq] at h
      simp [tokPrice, h.symm]

/-- A successful airline-set step appends exactly its spec token. -/
theorem addTokAirlines_ok (pre emsg : String) (o : Option (List String)) (parts q : List String)
    (h : addTokAirlines pre emsg o parts = Except.ok q) :
    q = parts ++ tokAirlines pre o := by
  unfold addTokAirlines at h
  unfold tokAirlines
  by_cases ht : truthyList o = true
  · rw [if_pos ht] at h
    rw [if_pos ht]
    by_cases hall : (!(o.getD []).all matchAirlineCode) = true
    · rw [if_pos hall] at h
      cases h
    · rw [if_neg hall, pureExcept_eq] at h
      simp only [Except.ok.injEq] at h
      exact h.symm
  · rw [if_neg ht, pureExcept_eq] at h
    simp only [Except.ok.injEq] at h
    rw [if_neg ht]
    simp [h.symm]

/-- Prepending tokens conditionally commutes with the append. -/
theorem ite_append_eq (c : Prop) [Decidable c] (l tks : List String) :
    (if c then l ++ tks else l) = l ++ (if c then tks else []) := by
  split <;> simp

/-- The alliance block appends exactly its spec token. -/
theorem matchAlliance_append (o : Option Alliance) (l : List String) :
    (match o with | some al => l ++ ["alliance=" ++ al.value] | none => l) =
    l ++ tokAlliance o := by
  cases o <;> simp [tokAlliance]

/-- Claim C8: a successfully built filter segment is the semicolon-join
of exactly the spec's tokens in the fixed order cfc, bfc, stops, price,
alliance, include-airlines, exclude-airlines, wifi (both airline tokens
when both sets are given); and with all filter fields at their defaults
the segment is empty and the generated URL carries no `fs=` query
parameter at all — the URL with default filters equals the URL with no
filters, whose query is exactly `sort=<value>`. -/
theorem C8_filter_segment (f : FlightFilters) (s : String)
    (h : f.to_url_string = Except.ok s) :
    s = String.intercalate ";" (filterTokensSpec f) ∧
    FlightFilters.to_url_string {} = Except.ok "" ∧
    (∀ dep arr dd rd p pl so,
      generate_search_url dep arr dd rd p pl so (some {}) =
        generate_search_url dep arr dd rd p pl so none) ∧
    (∀ dep arr dd rd p pl so u,
      generate_search_url dep arr dd rd p pl so none = Except.ok u →
        ∃ path, u = BASE_SEARCH_URL ++ "/" ++ path ++ "?" ++ ("sort=" ++ so.value)) := by
  refine ⟨?_, rfl, ?_, ?_⟩
  · unfold FlightFilters.to_url_string at h
    dsimp only at h
    rcases h1 : addTokNonNeg "Carry-on bags cannot be negative" "cfc="
        f.carry_on_free [] with e | p1
    · rw [h1, exceptBind_error] at h; cases h
    rw [h1, exceptBind_ok] at h
    rcases h2 : addTokNonNeg "Checked bags cannot be negative" "bfc="
        f.checked_bags_free p1 with e | p2
    · rw [h2, exceptBind_error] at h; cases h
    rw [h2, exceptBind_ok] at h
    rcases h3 : addTokNonNeg "Stops cannot be negative" "stops=" f.stops p2 with e | p3
    · rw [h3, exceptBind_error] at h; cases h
    rw [h3, exceptBind_ok] at h
    rcases h4 : addTokPrice f.max_price p3 with e | p4
    · rw [h4, exceptBind_error] at h; cases h
    rw [h4, exceptBind_ok] at h
    rw [matchAlliance_append f.alliance p4] at h
    rcases h5 : addTokAirlines "airlines=" "Invalid airline codes in include_airlines"
        f.include_airlines (p4 ++ tokAlliance f.alliance) with e | p5
    · rw [h5, exceptBind_error] at h; cases h
    rw [h5, exceptBind_ok] at h
    rcases h6 : addTokAirlines "airlines=-" "Invalid airline codes in exclude_airlines"
        f.exclude_airlines p5 with e | p6
    · rw [h6, exceptBind_error] at h; cases h
    rw [h6, exceptBind_ok] at h
    rw [ite_append_eq (f.wifi_only = true) p6 ["wifi=wifi"], pureExcept_eq] at h
    simp only [Except.ok.injEq] at h
    subst h
    have hp1 := addTokNonNeg_ok _ _ _ _ _ h1
    have hp2 := addTokNonNeg_ok _ _ _ _ _ h2
    have hp3 := addTokNonNeg_ok _ _ _ _ _ h3
    have hp4 := addTokPrice_ok _ _ _ h4
    have hp5 := addTokAirlines_ok _ _ _ _ _ h5
    have hp6 := addTokAirlines_ok _ _ _ _ _ h6
    rw [hp6, hp5, hp4, hp3, hp2, hp1]
    unfold filterTokensSpec
    simp [List.append_assoc]
  · intro dep arr dd rd p pl so
    rfl
  · intro dep arr dd rd p pl so u hu
    unfold generate_search_url at hu
    split at hu
    · cases hu
    · split at hu
      · cases hu
      · split at hu
        · cases hu
        · split at hu
          · cases hu
          · simp only [pureExcept_eq, exceptBind_ok, Except.ok.injEq] at hu
            exact ⟨_, hu.symm⟩


/-- Witness for claim C8 at two concrete filter values, one with only a
max price and one with both airline sets given. -/
theorem C8_filter_segment_witness :
    "price=-6000" = String.intercalate ";" (filterTokensSpec { max_price := some 6000 }) ∧
    "airlines=AC;airlines=-NK" = String.intercalate ";"
      (filterTokensSpec
        { include_airlines := some ["AC"], exclude_airlines := some ["NK"] }) :=
  ⟨(C8_filter_segment { max_price := some 6000 } "price=-6000" rfl).1,
   (C8_filter_segment { include_airlines := some ["AC"], exclude_airlines := some ["NK"] }
      "airlines=AC;airlines=-NK" rfl).1⟩


/-! ## Children-segment lemmas (claim C7) -/

/-- Representation invariant of the `child_counts` dict as an
association list: distinct keys, and membership exactly describes a
count function. -/
def RepCC (A : List (ChildType × Nat)) (g : ChildType → Nat) : Prop :=
  (A.map Prod.fst).Nodup ∧ ∀ c n, ((c, n) ∈ A ↔ 0 < g c ∧ n = g c)

/-- `RepCC` respects pointwise-equal count functions. -/
theorem RepCC_congr {A : List (ChildType × Nat)} {g g2 : ChildType → Nat}
    (h : RepCC A g) (hg : ∀ c, g c = g2 c) : RepCC A g2 :=
  ⟨h.1, fun c n => by rw [← hg c]; exact h.2 c n⟩

/-- Incrementing one key of the dict preserves the invariant, for the
pointwise-incremented count function. -/
theorem bump_rep (A : List (ChildType × Nat)) (g : ChildType → Nat) (c : ChildType)
    (h : RepCC A g) :
    RepCC (bumpChild A c) (fun d => if d = c then g d + 1 else g d) := by
  obtain ⟨hnd, hmem⟩ := h
  unfold bumpChild
  by_cases hin : A.any (fun p => p.1 = c) = true
  · rw [if_pos hin]
    constructor
    · have hkeys :
          (A.map (fun p => if p.1 = c then (p.1, p.2 + 1) else p)).map Prod.fst =
            A.map Prod.fst := by
        rw [List.map_map]
        have : (Prod.fst ∘ fun p : ChildType × Nat =>
            if p.1 = c then (p.1, p.2 + 1) else p) = Prod.fst := by
          funext p
          simp only [Function.comp_apply]
          split <;> rfl
        rw [this]
      rw [hkeys]
      exact hnd
    · intro d n
      show _ ↔ 0 < (if d = c then g d + 1 else g d) ∧ n = (if d = c then g d + 1 else g d)
      constructor
      · intro hd
        rcases List.mem_map.mp hd with ⟨p, hp, hfp⟩
        have hpa : (p.1, p.2) ∈ A := by simpa using hp
        have hgp := (hmem p.1 p.2).mp hpa
        by_cases hpc : p.1 = c
        · rw [if_pos hpc] at hfp
          have hd1 : p.1 = d := congrArg Prod.fst hfp
          have hn1 : p.2 + 1 = n := congrArg Prod.snd hfp
          have hdc : d = c := hd1 ▸ hpc
          rw [if_pos hdc]
          subst hd1
          exact ⟨by omega, by omega⟩
        · rw [if_neg hpc] at hfp
          have hd1 : p.1 = d := congrArg Prod.fst hfp
          have hn1 : p.2 = n := congrArg Prod.snd hfp
          have hdc : ¬ d = c := hd1 ▸ hpc
          rw [if_neg hdc, ← hd1, ← hn1]
          exact hgp
      · intro hgd
        obtain ⟨hpos, hn⟩ := hgd
        by_cases hdc : d = c
        · subst hdc
          rw [if_pos rfl] at hpos hn
          rcases List.any_eq_true.mp hin with ⟨p, hp, hpc⟩
          simp only [decide_eq_true_eq] at hpc
          have hpa : (p.1, p.2) ∈ A := by simpa using hp
          have hgp := (hmem p.1 p.2).mp hpa
          refine List.mem_map.mpr ⟨p, hp, ?_⟩
          show (if p.1 = d then (p.1, p.2 + 1) else p) = (d, n)
          rw [if_pos hpc, Prod.mk.injEq]
          exact ⟨hpc, by rw [hgp.2, hpc, hn]⟩
        · rw [if_neg hdc] at hpos hn
          have hda : (d, n) ∈ A := (hmem d n).mpr ⟨hpos, hn⟩
          refine List.mem_map.mpr ⟨(d, n), hda, ?_⟩
          rw [if_neg hdc]
  · rw [if_neg hin]
    have hfresh : ∀ p ∈ A, p.1 ≠ c := by
      intro p hp hpc
      exact hin (List.any_eq_true.mpr ⟨p, hp, by simp [hpc]⟩)
    have hgc : g c = 0 := by
      by_contra hne
      have hca : (c, g c) ∈ A := (hmem c (g c)).mpr ⟨Nat.pos_of_ne_zero hne, rfl⟩
      exact hfresh _ hca rfl
    constructor
    · rw [List.map_append, List.nodup_append]
      refine ⟨hnd, by simp, ?_⟩
      intro a ha hb
      simp only [List.map_cons, List.map_nil, List.mem_singleton] at hb
      subst hb
      rcases List.mem_map.mp ha with ⟨p, hp, hfp⟩
      exact hfresh p hp hfp
    · intro d n
      show _ ↔ 0 < (if d = c then g d + 1 else g d) ∧ n = (if d = c then g d + 1 else g d)
      rw [List.mem_append, List.mem_singleton]
      by_cases hdc : d = c
      · subst hdc
        constructor
        · rintro (hda | hpair)
          · exact absurd rfl (hfresh _ hda)
          · have hn1 : n = 1 := congrArg Prod.snd hpair
            rw [if_pos rfl, hgc, hn1]
            exact ⟨by omega, rfl⟩
        · rintro ⟨_, hn⟩
          rw [if_pos rfl, hgc] at hn
          right
          rw [hn]
      · constructor
        · rintro (hda | hpair)
          · rw [if_neg hdc]
            exact (hmem d n).mp hda
          · exact absurd (congrArg Prod.fst hpair) hdc
        · rintro ⟨hpos, hn⟩
          rw [if_neg hdc] at hpos hn
          exact Or.inl ((hmem d n).mpr ⟨hpos, hn⟩)


/-- Folding the dict-building step over a children list adds that
list's occurrence counts to the count function. -/
theorem foldl_bump_rep : ∀ (l : List ChildType) (A : List (ChildType × Nat))
    (g : ChildType → Nat), RepCC A g →
      RepCC (l.foldl bumpChild A) (fun c => g c + l.count c) := by
  intro l
  induction l with
  | nil =>
    intro A g h
    exact RepCC_congr h (fun c => by simp)
  | cons c0 l ih =>
    intro A g h
    rw [List.foldl_cons]
    have h2 := ih (bumpChild A c0) _ (bump_rep A g c0 h)
    refine RepCC_congr h2 (fun c => ?_)
    by_cases hc : c = c0
    · subst hc
      simp only [List.count_cons, beq_self_eq_true, if_true, if_pos rfl]
      omega
    · simp [List.count_cons, hc, Ne.symm hc]

/-- The built `child_counts` dict represents exactly the occurrence
counts of the children list. -/
theorem childCounts_rep (l : List ChildType) :
    RepCC (childCounts l) (fun c => l.count c) := by
  have h0 : RepCC [] (fun _ : ChildType => 0) := by
    constructor
    · simp
    · intro c n
      simp
  exact RepCC_congr (foldl_bump_rep l [] _ h0) (fun c => by simp)

/-- The three child fare types in increasing order of their wire codes
("11" < "1L" < "1S"). -/
def childTypeOrder : List ChildType :=
  [ChildType.CHILD, ChildType.INFANT_LAP, ChildType.TODDLER_SEAT]

/-- The children counts in canonical (code-sorted) order, derived from
the count function alone. -/
def canonicalCounts (l : List ChildType) : List (ChildType × Nat) :=
  (childTypeOrder.filter (fun c => decide (0 < l.count c))).map (fun c => (c, l.count c))

/-- Membership in the canonical counts is the same count description. -/
theorem canonicalCounts_mem (l : List ChildType) (c : ChildType) (n : Nat) :
    (c, n) ∈ canonicalCounts l ↔ 0 < l.count c ∧ n = l.count c := by
  unfold canonicalCounts
  constructor
  · intro h
    rcases List.mem_map.mp h with ⟨c2, hc2, heq⟩
    have h1 : c2 = c := congrArg Prod.fst heq
    have h2 : l.count c2 = n := congrArg Prod.snd heq
    subst h1
    refine ⟨?_, h2.symm⟩
    have := List.of_mem_filter hc2
    simpa using this
  · rintro ⟨hpos, hn⟩
    refine List.mem_map.mpr ⟨c, ?_, by rw [hn]⟩
    refine List.mem_filter.mpr ⟨?_, by simpa using hpos⟩
    cases c <;> simp [childTypeOrder]

/-- The canonical counts list has distinct keys. -/
theorem canonicalCounts_keys_nodup (l : List ChildType) :
    ((canonicalCounts l).map Prod.fst).Nodup := by
  unfold canonicalCounts
  rw [List.map_map]
  have : (Prod.fst ∘ fun c : ChildType => (c, l.count c)) = id := by
    funext c
    rfl
  rw [this, List.map_id]
  exact (by decide : childTypeOrder.Nodup).filter _

/-- The `child_counts` dict is a permutation of the canonical counts. -/
theorem childCounts_perm_canonical (l : List ChildType) :
    (childCounts l).Perm (canonicalCounts l) := by
  have h1 := childCounts_rep l
  rw [List.perm_ext_iff_of_nodup (h1.1.of_map) ((canonicalCounts_keys_nodup l).of_map)]
  rintro ⟨c, n⟩
  rw [canonicalCounts_mem]
  exact h1.2 c n


/-- `lexLe` is total. -/
theorem lexLe_total : ∀ as bs : List Char, lexLe as bs = true ∨ lexLe bs as = true := by
  intro as
  induction as with
  | nil => intro bs; left; rfl
  | cons a as ih =>
    intro bs
    cases bs with
    | nil => right; rfl
    | cons b bs2 =>
      by_cases hab : a < b
      · left; simp [lexLe, hab]
      · by_cases hba : b < a
        · right; simp [lexLe, hba]
        · rcases ih bs2 with h | h
          · left; simp [lexLe, hab, hba, h]
          · right; simp [lexLe, hba, hab, h]

/-- `lexLe` is antisymmetric. -/
theorem lexLe_antisymm : ∀ as bs : List Char,
    lexLe as bs = true → lexLe bs as = true → as = bs := by
  intro as
  induction as with
  | nil =>
    intro bs h1 h2
    cases bs with
    | nil => rfl
    | cons b bs2 => simp [lexLe] at h2
  | cons a as ih =>
    intro bs h1 h2
    cases bs with
    | nil => simp [lexLe] at h1
    | cons b bs2 =>
      by_cases hab : a < b
      · simp [lexLe, lt_asymm hab, hab] at h2
      · by_cases hba : b < a
        · simp [lexLe, hab, hba] at h1
        · have heq : a = b := le_antisymm (not_lt.mp hba) (not_lt.mp hab)
          subst heq
          simp only [lexLe, lt_irrefl, if_false] at h1 h2
          rw [ih bs2 h1 h2]

/-- `lexLe` is transitive. -/
theorem lexLe_trans : ∀ as bs cs : List Char,
    lexLe as bs = true → lexLe bs cs = true → lexLe as cs = true := by
  intro as
  induction as with
  | nil => intro bs cs _ _; rfl
  | cons a as ih =>
    intro bs cs h1 h2
    cases bs with
    | nil => simp [lexLe] at h1
    | cons b bs2 =>
      cases cs with
      | nil => simp [lexLe] at h2
      | cons c cs2 =>
        by_cases hab : a < b
        · by_cases hbc : b < c
          · simp [lexLe, lt_trans hab hbc]
          · by_cases hcb : c < b
            · simp [lexLe, hbc, hcb] at h2
            · have heq : b = c := le_antisymm (not_lt.mp hcb) (not_lt.mp hbc)
              subst heq
              simp [lexLe, hab]
        · by_cases hba : b < a
          · simp [lexLe, hab, hba] at h1
          · have heq : a = b := le_antisymm (not_lt.mp hba) (not_lt.mp hab)
            subst heq
            simp only [lexLe, lt_irrefl, if_false] at h1
            by_cases hbc : a < c
            · simp [lexLe, hbc]
            · by_cases hcb : c < a
              · simp [lexLe, hbc, hcb] at h2
              · have heq2 : a = c := le_antisymm (not_lt.mp hcb) (not_lt.mp hbc)
                subst heq2
                simp only [lexLe, lt_irrefl, if_false] at h2 ⊢
                exact ih bs2 cs2 h1 h2

/-- The sort key order on `(child, count)` pairs. -/
def pairLe (p q : ChildType × Nat) : Prop :=
  codeLe p.1.value q.1.value = true

/-- The strict, antisymmetric order used to show sorted lists are
unique: key order plus distinct keys. -/
def pairRel (p q : ChildType × Nat) : Prop :=
  pairLe p q ∧ p.1 ≠ q.1

/-- Inserting preserves membership up to permutation. -/
theorem insertByCode_perm (p : ChildType × Nat) :
    ∀ l, (insertByCode p l).Perm (p :: l) := by
  intro l
  induction l with
  | nil => exact List.Perm.refl _
  | cons q qs ih =>
    unfold insertByCode
    by_cases h : codeLe p.1.value q.1.value = true
    · rw [if_pos h]
    · rw [if_neg h]
      exact (List.Perm.cons q ih).trans (List.Perm.swap p q qs)

/-- The insertion sort permutes its input. -/
theorem sortByCode_perm : ∀ l, (sortByCode l).Perm l := by
  intro l
  induction l with
  | nil => exact List.Perm.refl _
  | cons x xs ih =>
    unfold sortByCode
    rw [List.foldr_cons]
    exact (insertByCode_perm x _).trans (List.Perm.cons x ih)

/-- Inserting into a key-sorted list keeps it key-sorted. -/
theorem insertByCode_pairwise (p : ChildType × Nat) :
    ∀ l, l.Pairwise pairLe → (insertByCode p l).Pairwise pairLe := by
  intro l
  induction l with
  | nil => intro _; simp [insertByCode]
  | cons q qs ih =>
    intro hpw
    rcases List.pairwise_cons.mp hpw with ⟨hq, hqs⟩
    unfold insertByCode
    by_cases h : codeLe p.1.value q.1.value = true
    · rw [if_pos h]
      refine List.pairwise_cons.mpr ⟨?_, hpw⟩
      intro x hx
      rcases List.mem_cons.mp hx with rfl | hx2
      · exact h
      · exact lexLe_trans _ _ _ h (hq x hx2)
    · rw [if_neg h]
      refine List.pairwise_cons.mpr ⟨?_, ih hqs⟩
      intro x hx
      rcases List.mem_cons.mp ((insertByCode_perm p qs).mem_iff.mp hx) with heq | hx2
      · rw [heq]
        rcases lexLe_total p.1.value.data q.1.value.data with h2 | h2
        · exact absurd h2 h
        · exact h2
      · exact hq x hx2

/-- The insertion sort produces a key-sorted list. -/
theorem sortByCode_pairwise : ∀ l, (sortByCode l).Pairwise pairLe := by
  intro l
  induction l with
  | nil => simp [sortByCode]
  | cons x xs ih =>
    unfold sortByCode
    rw [List.foldr_cons]
    exact insertByCode_pairwise x _ ih


/-- The wire codes of the three child types are pairwise distinct. -/
theorem childValue_inj : ∀ a b : ChildType, a.value = b.value → a = b := by
  intro a b h
  cases a <;> cases b <;> first
  | rfl
  | exact absurd h (by decide)

/-- Equal-data strings are equal. -/
theorem stringDataEq {s t : String} (h : s.data = t.data) : s = t := by
  cases s
  cases t
  exact congrArg String.mk h

/-- Two lists sorted by `pairRel` that are permutations of each other
are equal. -/
theorem sorted_unique (L1 L2 : List (ChildType × Nat)) (hp : L1.Perm L2)
    (h1 : L1.Pairwise pairRel) (h2 : L2.Pairwise pairRel) : L1 = L2 := by
  haveI : IsAntisymm (ChildType × Nat) pairRel :=
    ⟨fun a b hab hba => by
      have hv : a.1.value = b.1.value :=
        stringDataEq (lexLe_antisymm _ _ hab.1 hba.1)
      exact absurd (childValue_inj _ _ hv) hab.2⟩
  exact List.eq_of_perm_of_sorted hp h1 h2

/-- Key lemma: sorting the built `child_counts` dict by code yields
exactly the canonical code-sorted counts. -/
theorem sortedCounts_eq_canonical (l : List ChildType) :
    sortByCode (childCounts l) = canonicalCounts l := by
  apply sorted_unique
  · exact (sortByCode_perm _).trans (childCounts_perm_canonical l)
  · have hle := sortByCode_pairwise (childCounts l)
    have hnd : ((sortByCode (childCounts l)).map Prod.fst).Nodup :=
      (((sortByCode_perm (childCounts l)).map Prod.fst).nodup_iff).mpr (childCounts_rep l).1
    have hneq : (sortByCode (childCounts l)).Pairwise (fun p q => p.1 ≠ q.1) := by
      rw [List.Nodup, List.pairwise_map] at hnd
      exact hnd
    exact hle.and hneq
  · unfold canonicalCounts
    rw [List.pairwise_map]
    have hbase : childTypeOrder.Pairwise
        (fun a b => codeLe a.value b.value = true ∧ a ≠ b) := by decide
    exact List.Pairwise.sublist (List.filter_sublist _) (hbase.imp (fun h => ⟨h.1, h.2⟩))

/-- The children segment as the spec describes it: `children-` followed
by one token per child type present, in increasing code order, the count
prefixed only when above 1, joined with `-`. -/
def childSegmentSpec (l : List ChildType) : String :=
  "children-" ++ String.intercalate "-" ((canonicalCounts l).map childToken)

/-- Canonical counts depend only on the multiset of children. -/
theorem canonicalCounts_congr (l1 l2 : List ChildType) (h : l1.Perm l2) :
    canonicalCounts l1 = canonicalCounts l2 := by
  unfold canonicalCounts
  have hc : ∀ c, l1.count c = l2.count c := fun c => h.count_eq c
  simp only [hc]

/-- With children present, the passenger segment is the adult and
student parts followed by the spec's children segment. -/
theorem to_url_string_canonical (ps : FlightPassengers) (hne : ps.children ≠ []) :
    ps.to_url_string = String.intercalate "-"
      ((if ps.adults > 0 then [toString ps.adults ++ "adults"] else []) ++
       (if ps.students > 0 then [toString ps.students ++ "students"] else []) ++
       [childSegmentSpec ps.children]) := by
  unfold FlightPassengers.to_url_string
  have hB : ps.children.isEmpty = false := by
    cases hc : ps.children with
    | nil => exact absurd hc hne
    | cons x xs => rfl
  simp only [hB, Bool.false_eq_true, if_false]
  rw [sortedCounts_eq_canonical]
  rfl

/-- Claim C7: for every passenger composition with children, the
passenger segment renders the children as the spec's canonical
code-sorted token list (count prefix only above 1, `-`-joined after a
`children-` prefix), so the segment is invariant under reordering the
input children list; and the example composition adults=2,
children=[INFANT_LAP, CHILD] renders `2adults-children-11-1L` (CHILD's
code "11" before INFANT_LAP's "1L"). -/
theorem C7_children_sorted (ps : FlightPassengers) (l2 : List ChildType)
    (hne : ps.children ≠ []) (hperm : ps.children.Perm l2) :
    FlightPassengers.to_url_string { ps with children := l2 } =
      FlightPassengers.to_url_string ps ∧
    FlightPassengers.to_url_string ps = String.intercalate "-"
      ((if ps.adults > 0 then [toString ps.adults ++ "adults"] else []) ++
       (if ps.students > 0 then [toString ps.students ++ "students"] else []) ++
       [childSegmentSpec ps.children]) ∧
    FlightPassengers.to_url_string
      { adults := 2, students := 0,
        children := [ChildType.INFANT_LAP, ChildType.CHILD] } =
      "2adults-children-11-1L" := by
  have hne2 : l2 ≠ [] := by
    intro h0
    rw [h0] at hperm
    exact hne hperm.eq_nil
  refine ⟨?_, to_url_string_canonical ps hne, rfl⟩
  rw [to_url_string_canonical { ps with children := l2 } hne2,
    to_url_string_canonical ps hne]
  unfold childSegmentSpec
  rw [canonicalCounts_congr l2 ps.children hperm.symm]

/-- Witness for claim C7: reordering `[CHILD, INFANT_LAP]` versus
`[INFANT_LAP, CHILD]` yields the same segment, which matches the
canonical form and equals `2adults-children-11-1L`. -/
theorem C7_children_sorted_witness :
    FlightPassengers.to_url_string
        { adults := 2, students := 0,
          children := [ChildType.CHILD, ChildType.INFANT_LAP] } =
      FlightPassengers.to_url_string
        { adults := 2, students := 0,
          children := [ChildType.INFANT_LAP, ChildType.CHILD] } ∧
    FlightPassengers.to_url_string
        { adults := 2, students := 0,
          children := [ChildType.INFANT_LAP, ChildType.CHILD] } =
      String.intercalate "-"
        ((if (2 : Nat) > 0 then [toString (2 : Nat) ++ "adults"] else []) ++
         (if (0 : Nat) > 0 then [toString (0 : Nat) ++ "students"] else []) ++
         [childSegmentSpec [ChildType.INFANT_LAP, ChildType.CHILD]]) ∧
    FlightPassengers.to_url_string
      { adults := 2, students := 0,
        children := [ChildType.INFANT_LAP, ChildType.CHILD] } =
      "2adults-children-11-1L" :=
  C7_children_sorted
    { adults := 2, students := 0, children := [ChildType.INFANT_LAP, ChildType.CHILD] }
    [ChildType.CHILD, ChildType.INFANT_LAP] (by decide) (by decide)

end FlightScraper
